import Mathlib

/-!
Verification of the Arq.MFT signal-generation and order-execution pipeline.

Shallow embedding of `market_analyzer_robust.py` (analysis modules and the
decision engine `generate_trading_signal`) and `mt5_order_executor_v3.py`
(signal processor, order processor, trading gate, daily statistics).

Conventions of the embedding:
* Python floats are modelled as rationals (`ℚ`); decimal literals are exact.
* `ℚ` division by zero yields 0.  Where pandas would instead produce `±inf`
  and the code only tests the *sign* of a quotient (the `pct_change`
  comparisons in the Wyckoff module), the pandas semantics is reproduced
  explicitly by `pcPos` / `pcNeg`.  No claim exercises a `±inf` value path.
* A dataframe is a chronologically ascending list of rows; `.iloc[-k]`
  becomes indexing from the end, `.tail(n)` becomes `lastN n`.
* Python truthiness on optional floats / strings (`if not x`) is modelled by
  `optTruthy` / `tsTruthy` (`None`, `0.0` and `""` are falsy).
-/

/-- Direction of a microsignal, as the Python string values "Compra"/"Venda". -/
inductive SigType where
  | Compra
  | Venda
deriving DecidableEq, Repr

/-- A microsignal dictionary as appended by the analysis modules.
`strength` and `confidence` are optional because the Python dicts carry the
keys only sometimes (the modules never set `confidence`; the Wyckoff module
does not set `strength`); readers use `.get(key, 0)` semantics. -/
structure MS where
  type : SigType
  reason : String
  strength : Option ℚ
  confidence : Option ℚ
deriving DecidableEq, Repr

/-- One observation row of the per-instrument market table (columns consumed
by the analysis modules; the Data Quality Guard guarantees the analysis
columns exist, substituting fallback zeros, so the row type is total). -/
structure MarketRow where
  ultimo : ℚ
  maximo : ℚ
  minimo : ℚ
  volume : ℚ
  agressao_compra : ℚ
  agressao_venda : ℚ
  agressao_saldo : ℚ
deriving DecidableEq, Repr

/-- An observation frame: rows sorted by timestamp ascending (last = newest). -/
abbrev Frame := List MarketRow

/-- Arithmetic mean of a list (`pandas .mean()`); only applied to nonempty
lists by the guarded call sites. -/
def qmean (l : List ℚ) : ℚ := l.sum / (l.length : ℚ)

/-- The last `n` elements of a list (`pandas .tail(n)` / `.iloc[-n:]`). -/
def lastN (n : ℕ) (l : List α) : List α := l.drop (l.length - n)

/-- Insert into an ascending-sorted list. -/
def insertAsc (x : ℚ) : List ℚ → List ℚ
  | [] => [x]
  | y :: ys => if x ≤ y then x :: y :: ys else y :: insertAsc x ys

/-- Ascending insertion sort (used for `nsmallest`). -/
def sortAsc (l : List ℚ) : List ℚ := l.foldr insertAsc []

/-- Insert into a descending-sorted list. -/
def insertDesc (x : ℚ) : List ℚ → List ℚ
  | [] => [x]
  | y :: ys => if y ≤ x then x :: y :: ys else y :: insertDesc x ys

/-- Descending insertion sort (used for `nlargest`). -/
def sortDesc (l : List ℚ) : List ℚ := l.foldr insertDesc []

/-- Sign test `pct_change > 0` with pandas semantics: `(cur - prev)/prev`
compares positive, where a zero base gives `±inf` (taking the sign of the
numerator) and `0/0` is `NaN` (neither positive nor negative; the code runs
`fillna(0)` on these columns). -/
def pcPos (prev cur : ℚ) : Bool :=
  if prev = 0 then decide (0 < cur) else decide (0 < (cur - prev) / prev)

/-- Sign test `pct_change < 0` with pandas semantics (see `pcPos`). -/
def pcNeg (prev cur : ℚ) : Bool :=
  if prev = 0 then decide (cur < 0) else decide ((cur - prev) / prev < 0)

/-- Consecutive pairs `(x_i, x_{i+1})` of a list. -/
def consecPairs (l : List α) : List (α × α) := l.zip l.tail

/-- Count of bars where price rises while volume falls
(`price_up_volume_down`, the distribution tell). -/
def price_up_volume_down (df : Frame) : ℕ :=
  ((consecPairs (df.map MarketRow.ultimo)).zip (consecPairs (df.map MarketRow.volume))).countP
    fun pq => pcPos pq.1.1 pq.1.2 && pcNeg pq.2.1 pq.2.2

/-- Count of bars where price falls while volume rises
(`price_down_volume_up`, the accumulation tell). -/
def price_down_volume_up (df : Frame) : ℕ :=
  ((consecPairs (df.map MarketRow.ultimo)).zip (consecPairs (df.map MarketRow.volume))).countP
    fun pq => pcNeg pq.1.1 pq.1.2 && pcPos pq.2.1 pq.2.2

/-- Result record of the Wyckoff (phase/structure) analysis.  The invalid
result models the Python dict without the analysis keys: every consumer reads
them with `.get(key, default)`, so absent keys behave as the defaults used
here (`signals = []`, `confidence = 0`, levels `none`, counts `0`). -/
structure WyckoffResult where
  valid : Bool
  phase : Option String
  signals : List MS
  confidence : ℚ
  support_level : Option ℚ
  resistance_level : Option ℚ
  pupd : ℕ
  pdvu : ℕ
  position_in_range : Option ℚ
deriving DecidableEq, Repr

/-- The invalid Wyckoff result (missing keys read as their `.get` defaults). -/
def WyckoffResult.invalid : WyckoffResult :=
  ⟨false, none, [], 0, none, none, 0, 0, none⟩

/-- Wyckoff configuration slice of a resolved profile configuration. -/
structure WyckoffCfg where
  enabled : Bool
deriving Repr

/-- Support level: mean of the 3 smallest lows of the last 20 rows
(`recent_df['minimo'].nsmallest(3)` then `sum/len`). -/
def supportOf (recent : Frame) : ℚ :=
  let mins := (sortAsc (recent.map MarketRow.minimo)).take 3
  mins.sum / (mins.length : ℚ)

/-- Resistance level: mean of the 3 largest highs of the last 20 rows
(`recent_df['maximo'].nlargest(3)` then `sum/len`). -/
def resistanceOf (recent : Frame) : ℚ :=
  let maxs := (sortDesc (recent.map MarketRow.maximo)).take 3
  maxs.sum / (maxs.length : ℚ)

/-- The distribution tell count read by the phase decision (0 when the
volume analysis did not run for lack of 5 points, matching the `.get(_, 0)`
read of the empty `volume_analysis` dict). -/
def wyPupd (df : Frame) : ℕ := if 5 ≤ df.length then price_up_volume_down df else 0

/-- The accumulation tell count read by the phase decision (0 when the volume
analysis did not run for lack of 5 points, matching the `.get(_, 0)` read of
the empty `volume_analysis` dict). -/
def wyPdvu (df : Frame) : ℕ := if 5 ≤ df.length then price_down_volume_up df else 0

/-- The Wyckoff support level over the last 20 rows of the frame. -/
def wySupport (df : Frame) : ℚ := supportOf (lastN 20 df)

/-- The Wyckoff resistance level over the last 20 rows of the frame. -/
def wyResistance (df : Frame) : ℚ := resistanceOf (lastN 20 df)

/-- The width of the support/resistance range. -/
def wyWidth (df : Frame) : ℚ := wyResistance df - wySupport df

/-- The last observed price of the frame. -/
def wyLastPrice (df : Frame) : ℚ := ((df.map MarketRow.ultimo).getLast?).getD 0

/-- The position of the last price inside the range
(`(last_price - support) / range_width`). -/
def wyPosition (df : Frame) : ℚ := (wyLastPrice df - wySupport df) / wyWidth df

/-- Shallow embedding of `MarketAnalyzer.analyze_wyckoff`.  The volume
divergence counts are only computed when the frame has at least 5 points
(otherwise the `volume_analysis` dict stays empty and its `.get(_, 0)` reads
give 0); the range analysis needs at least 10 points, the position in range
a positive range width.  The diagnostic-only `potential_target` /
`risk_reward` fields of `price_analysis` are not consumed by any downstream
reader and are omitted. -/
def analyze_wyckoff (df : Frame) (cfg : WyckoffCfg) : WyckoffResult :=
  if df.isEmpty then WyckoffResult.invalid
  else if ¬cfg.enabled then WyckoffResult.invalid
  else if 10 ≤ df.length then
    if 0 < wyWidth df then
      if wyPosition df < 0.3 then
        if 5 < wyPdvu df then
          ⟨true, some "Acumulação",
            [⟨SigType.Compra, "Acumulação próxima ao suporte", none, none⟩],
            0.7, some (wySupport df), some (wyResistance df),
            wyPupd df, wyPdvu df, some (wyPosition df)⟩
        else ⟨true, none, [], 0, some (wySupport df), some (wyResistance df),
          wyPupd df, wyPdvu df, some (wyPosition df)⟩
      else if 0.7 < wyPosition df then
        if 5 < wyPupd df then
          ⟨true, some "Distribuição",
            [⟨SigType.Venda, "Distribuição próxima à resistência", none, none⟩],
            0.7, some (wySupport df), some (wyResistance df),
            wyPupd df, wyPdvu df, some (wyPosition df)⟩
        else ⟨true, none, [], 0, some (wySupport df), some (wyResistance df),
          wyPupd df, wyPdvu df, some (wyPosition df)⟩
      else ⟨true, none, [], 0, some (wySupport df), some (wyResistance df),
        wyPupd df, wyPdvu df, some (wyPosition df)⟩
    else ⟨true, none, [], 0, some (wySupport df), some (wyResistance df),
      wyPupd df, wyPdvu df, none⟩
  else ⟨true, none, [], 0, none, none, wyPupd df, wyPdvu df, none⟩

/-- Order-flow configuration slice of a resolved profile configuration. -/
structure OrderFlowCfg where
  enabled : Bool
  aggression_threshold : ℚ
  absorption_threshold : ℚ
  exhaustion_threshold : ℚ
deriving Repr

/-- Result record of the order-flow analysis (aggression, absorption,
exhaustion).  `strength`, `current_balance`, `long_term_ma` mirror the
`aggression_analysis` sub-dict. -/
structure OrderFlowResult where
  valid : Bool
  signals : List MS
  confidence : ℚ
  current_balance : ℚ
  long_term_ma : ℚ
  strength : ℚ
deriving DecidableEq, Repr

/-- The invalid order-flow result (missing keys read as `.get` defaults). -/
def OrderFlowResult.invalid : OrderFlowResult := ⟨false, [], 0, 0, 0, 0⟩

/-- The 20-period long-term moving average of the aggression balance as read
at the last row: pandas `rolling(20).mean().fillna(0)` when the frame has at
least 20 rows (the last entry is then the genuine 20-window mean), and the
raw balance column itself otherwise (the code assigns
`df['agressao_saldo_ma20'] = df['agressao_saldo']` in that case). -/
def lastSaldoMa20 (saldos : List ℚ) : ℚ :=
  if 20 ≤ saldos.length then qmean (lastN 20 saldos) else (saldos.getLast?).getD 0

/-- The aggression strength
`last_saldo / max(1, abs(last_saldo_ma20))` (source line 696). -/
def aggStrength (saldos : List ℚ) : ℚ :=
  ((saldos.getLast?).getD 0) / max 1 |lastSaldoMa20 saldos|

/-- Aggression sub-analysis of `analyze_order_flow` (source lines 690-720):
the directional microsignal it may emit, the confidence it assigns, and the
strength.  Returns `(signals, confidence, strength)`. -/
def aggressionAnalysis (saldos : List ℚ) (thr : ℚ) : List MS × ℚ × ℚ :=
  if thr < aggStrength saldos then
    if 0 < (saldos.getLast?).getD 0 then
      ([⟨SigType.Compra, "Forte agressão compradora", some (aggStrength saldos), none⟩],
        min 0.9 (0.5 + aggStrength saldos / 10), aggStrength saldos)
    else if (saldos.getLast?).getD 0 < 0 then
      ([⟨SigType.Venda, "Forte agressão vendedora", some (-(aggStrength saldos)), none⟩],
        min 0.9 (0.5 + |aggStrength saldos| / 10), aggStrength saldos)
    else ([], 0, aggStrength saldos)
  else ([], 0, aggStrength saldos)

/-- The recent (5-period) relative price change
`(ultimo[-1] - ultimo[-5]) / max(0.01, ultimo[-5])`. -/
def recentPriceChange5 (df : Frame) : ℚ :=
  (((df.map MarketRow.ultimo).getLast?).getD 0
      - (df.map MarketRow.ultimo).getD (df.length - 5) 0)
    / max 0.01 ((df.map MarketRow.ultimo).getD (df.length - 5) 0)

/-- The accumulated buy+sell aggression volume of the last 5 rows. -/
def recentAggressionVolume (df : Frame) : ℚ :=
  (lastN 5 (df.map MarketRow.agressao_compra)).sum
    + (lastN 5 (df.map MarketRow.agressao_venda)).sum

/-- The accumulated aggression balance of the last 5 rows. -/
def recentAggressionBalance (df : Frame) : ℚ :=
  (lastN 5 (df.map MarketRow.agressao_saldo)).sum

/-- The absorption quotient
`recent_aggression_volume / max(0.001, abs(recent_price_change))`. -/
def absorbQ (df : Frame) : ℚ :=
  recentAggressionVolume df / max 0.001 |recentPriceChange5 df|

/-- Absorption sub-analysis of `analyze_order_flow` (runs when the frame has
at least 5 rows).  Takes the confidence accumulated so far and returns the
appended signals together with the updated confidence. -/
def absorptionAnalysis (df : Frame) (thr : ℚ) (conf : ℚ) : List MS × ℚ :=
  if 5 ≤ df.length then
    if thr < absorbQ df then
      if 0 < recentAggressionBalance df ∧ recentPriceChange5 df ≤ 0 then
        ([⟨SigType.Venda, "Absorção de compra detectada", some (absorbQ df / thr), none⟩],
          max conf (min 0.8 (0.4 + absorbQ df / 20)))
      else if recentAggressionBalance df < 0 ∧ 0 ≤ recentPriceChange5 df then
        ([⟨SigType.Compra, "Absorção de venda detectada", some (absorbQ df / thr), none⟩],
          max conf (min 0.8 (0.4 + absorbQ df / 20)))
      else ([], conf)
    else ([], conf)
  else ([], conf)

/-- The mean aggression balance of rows `[-10:-5]`. -/
def previousAggression5 (df : Frame) : ℚ :=
  qmean (((df.map MarketRow.agressao_saldo).drop (df.length - 10)).take 5)

/-- The mean aggression balance of the last 5 rows. -/
def recentAggression5 (df : Frame) : ℚ :=
  qmean (lastN 5 (df.map MarketRow.agressao_saldo))

/-- The relative price change of rows `[-10]` to `[-5]`
(`(ultimo[-5] - ultimo[-10]) / max(0.01, ultimo[-10])`). -/
def previousPriceChange5 (df : Frame) : ℚ :=
  ((df.map MarketRow.ultimo).getD (df.length - 5) 0
      - (df.map MarketRow.ultimo).getD (df.length - 10) 0)
    / max 0.01 ((df.map MarketRow.ultimo).getD (df.length - 10) 0)

/-- Exhaustion sub-analysis of `analyze_order_flow` (runs when the frame has
at least 10 rows): a sign flip in the aggression or price window means
(either product negative) flags exhaustion; the direction of the aggression
flip picks the signal. -/
def exhaustionAnalysis (df : Frame) (conf : ℚ) : List MS × ℚ :=
  if 10 ≤ df.length then
    if previousAggression5 df * recentAggression5 df < 0
        ∨ previousPriceChange5 df * recentPriceChange5 df < 0 then
      if 0 < previousAggression5 df ∧ recentAggression5 df < 0 then
        ([⟨SigType.Venda, "Exaustão de compra detectada",
            some |recentAggression5 df / max 0.01 (previousAggression5 df)|, none⟩],
          max conf 0.75)
      else if previousAggression5 df < 0 ∧ 0 < recentAggression5 df then
        ([⟨SigType.Compra, "Exaustão de venda detectada",
            some |recentAggression5 df / max 0.01 (previousAggression5 df)|, none⟩],
          max conf 0.75)
      else ([], conf)
    else ([], conf)
  else ([], conf)

/-- Shallow embedding of `MarketAnalyzer.analyze_order_flow`: the three
sub-analyses run in order, appending microsignals and folding the module
confidence exactly as the source does. -/
def analyze_order_flow (df : Frame) (cfg : OrderFlowCfg) : OrderFlowResult :=
  if df.isEmpty then OrderFlowResult.invalid
  else if ¬cfg.enabled then OrderFlowResult.invalid
  else
    ⟨true,
      (aggressionAnalysis (df.map MarketRow.agressao_saldo) cfg.aggression_threshold).1
        ++ (absorptionAnalysis df cfg.absorption_threshold
            (aggressionAnalysis (df.map MarketRow.agressao_saldo)
              cfg.aggression_threshold).2.1).1
        ++ (exhaustionAnalysis df
            (absorptionAnalysis df cfg.absorption_threshold
              (aggressionAnalysis (df.map MarketRow.agressao_saldo)
                cfg.aggression_threshold).2.1).2).1,
      (exhaustionAnalysis df
        (absorptionAnalysis df cfg.absorption_threshold
          (aggressionAnalysis (df.map MarketRow.agressao_saldo)
            cfg.aggression_threshold).2.1).2).2,
      (((df.map MarketRow.agressao_saldo).getLast?).getD 0),
      lastSaldoMa20 (df.map MarketRow.agressao_saldo),
      (aggressionAnalysis (df.map MarketRow.agressao_saldo) cfg.aggression_threshold).2.2⟩

/-- Momentum configuration slice of a resolved profile configuration. -/
structure MomentumCfg where
  enabled : Bool
  fast_period : ℕ
  slow_period : ℕ
  signal_threshold : ℚ
deriving Repr

/-- Result record of the momentum analysis. -/
structure MomentumResult where
  valid : Bool
  signals : List MS
  confidence : ℚ
  trend : Option String
  momentum_strength : ℚ
deriving DecidableEq, Repr

/-- The invalid momentum result (missing keys read as `.get` defaults). -/
def MomentumResult.invalid : MomentumResult := ⟨false, [], 0, none, 0⟩

/-- Rolling mean of window `w` filled with the series itself where the window
is not yet complete: pandas `x.rolling(w).mean().fillna(x)` (entry `i` is the
mean of the `w` values ending at `i` when `i + 1 ≥ w`, and `x_i` otherwise). -/
def maFill (xs : List ℚ) (w : ℕ) : List ℚ :=
  (List.range xs.length).map fun i =>
    if w ≤ i + 1 then qmean ((xs.take (i + 1)).drop (i + 1 - w)) else xs.getD i 0

/-- The fast-minus-slow moving-average difference series `ma_diff`. -/
def maDiffList (xs : List ℚ) (fast slow : ℕ) : List ℚ :=
  (maFill xs fast).zipWith (fun a b => a - b) (maFill xs slow)

/-- The percentage difference `ma_diff / ma_slow.replace(0, 1)`. -/
def maDiffPctList (xs : List ℚ) (fast slow : ℕ) : List ℚ :=
  (maDiffList xs fast slow).zipWith (fun d s => d / (if s = 0 then 1 else s)) (maFill xs slow)

/-- The current-tick `ma_diff` value (`df['ma_diff'].iloc[-1]`). -/
def lastMaDiff (xs : List ℚ) (fast slow : ℕ) : ℚ :=
  (maDiffList xs fast slow).getD (xs.length - 1) 0

/-- The previous-tick `ma_diff` value (`df['ma_diff'].iloc[-2]`). -/
def prevMaDiff (xs : List ℚ) (fast slow : ℕ) : ℚ :=
  (maDiffList xs fast slow).getD (xs.length - 2) 0

/-- The current-tick `ma_diff_pct` value (`df['ma_diff_pct'].iloc[-1]`). -/
def lastMaDiffPct (xs : List ℚ) (fast slow : ℕ) : ℚ :=
  (maDiffPctList xs fast slow).getD (xs.length - 1) 0

/-- Moving-average cross detection of `analyze_momentum` (source lines
896-917): compares the previous-tick and current `ma_diff` and emits the
golden-cross Buy (`prev ≤ 0` to `> 0`) or death-cross Sell (`prev ≥ 0` to
`< 0`) microsignal, returning the confidence it assigns (0 when no cross
fires).  Only runs when the frame has ≥ 3 rows. -/
def momentumCross (xs : List ℚ) (fast slow : ℕ) : List MS × ℚ :=
  if 3 ≤ xs.length then
    if prevMaDiff xs fast slow ≤ 0 ∧ 0 < lastMaDiff xs fast slow then
      ([⟨SigType.Compra, "Cruzamento de médias para cima (Golden Cross)",
          some (|lastMaDiffPct xs fast slow| * 10), none⟩],
        min 0.85 (0.6 + |lastMaDiffPct xs fast slow| * 5))
    else if 0 ≤ prevMaDiff xs fast slow ∧ lastMaDiff xs fast slow < 0 then
      ([⟨SigType.Venda, "Cruzamento de médias para baixo (Death Cross)",
          some (|lastMaDiffPct xs fast slow| * 10), none⟩],
        min 0.85 (0.6 + |lastMaDiffPct xs fast slow| * 5))
    else ([], 0)
  else ([], 0)

/-- Five-period rate of change read at the last row:
`df['ultimo'].pct_change(periods=5) * 100`, which is `NaN` (read as 0) unless
the frame has more than 5 rows.  ℚ division-by-zero convention applies to a
zero base (pandas: `±inf`; no claim exercises that path). -/
def lastRoc5 (xs : List ℚ) : ℚ :=
  let n := xs.length
  if 5 ≤ n then
    if n ≤ 5 then 0
    else ((xs.getD (n - 1) 0 - xs.getD (n - 6) 0) / xs.getD (n - 6) 0) * 100
  else 0

/-- Rate-of-change trend-confirmation block of `analyze_momentum`: takes the
trend label and the confidence accumulated so far. -/
def rocAnalysis (xs : List ℚ) (thr : ℚ) (trend : String) (conf : ℚ) : List MS × ℚ :=
  if thr < |lastRoc5 xs| then
    if 0 < lastRoc5 xs then
      if trend = "Alta" then
        ([⟨SigType.Compra, "Momentum positivo em tendência de alta",
            some (lastRoc5 xs / thr), none⟩],
          max conf (min 0.8 (0.5 + lastRoc5 xs / 10)))
      else ([], conf)
    else
      if trend = "Baixa" then
        ([⟨SigType.Venda, "Momentum negativo em tendência de baixa",
            some (|lastRoc5 xs| / thr), none⟩],
          max conf (min 0.8 (0.5 + |lastRoc5 xs| / 10)))
      else ([], conf)
  else ([], conf)

/-- The trend label: `"Alta"` when the current `ma_diff` is positive,
`"Baixa"` otherwise. -/
def momentumTrend (xs : List ℚ) (fast slow : ℕ) : String :=
  if 0 < lastMaDiff xs fast slow then "Alta" else "Baixa"

/-- Shallow embedding of `MarketAnalyzer.analyze_momentum`: invalid below
`slow_period` rows; otherwise moving averages, cross detection, and the
rate-of-change confirmation, appending signals and folding confidence exactly
as the source does. -/
def analyze_momentum (df : Frame) (cfg : MomentumCfg) : MomentumResult :=
  if df.isEmpty then MomentumResult.invalid
  else if ¬cfg.enabled then MomentumResult.invalid
  else if df.length < cfg.slow_period then MomentumResult.invalid
  else
    ⟨true,
      (momentumCross (df.map MarketRow.ultimo) cfg.fast_period cfg.slow_period).1
        ++ (rocAnalysis (df.map MarketRow.ultimo) cfg.signal_threshold
            (momentumTrend (df.map MarketRow.ultimo) cfg.fast_period cfg.slow_period)
            (momentumCross (df.map MarketRow.ultimo) cfg.fast_period cfg.slow_period).2).1,
      (rocAnalysis (df.map MarketRow.ultimo) cfg.signal_threshold
        (momentumTrend (df.map MarketRow.ultimo) cfg.fast_period cfg.slow_period)
        (momentumCross (df.map MarketRow.ultimo) cfg.fast_period cfg.slow_period).2).2,
      some (momentumTrend (df.map MarketRow.ultimo) cfg.fast_period cfg.slow_period),
      if 0 < lastMaDiff (df.map MarketRow.ultimo) cfg.fast_period cfg.slow_period
        then lastMaDiffPct (df.map MarketRow.ultimo) cfg.fast_period cfg.slow_period
        else -(lastMaDiffPct (df.map MarketRow.ultimo) cfg.fast_period cfg.slow_period)⟩

/-- Python float truthiness on an optional value: `None` and `0.0` are falsy
(`stop_loss = support_level if support_level else ...`). -/
def optTruthy (o : Option ℚ) : Option ℚ :=
  match o with
  | some x => if x = 0 then none else some x
  | none => none

/-- Signal-generation configuration slice of a resolved profile
configuration, together with the per-asset `enabled` flag. -/
structure SignalCfg where
  asset_enabled : Bool
  min_confidence : ℚ
  confirmation_required : Bool
  risk_reward_min : ℚ
  signal_interval : ℚ
deriving Repr

/-- An emitted TradingDecision (the dict written to the signal file). -/
structure TradingSignal where
  asset : String
  type : SigType
  entry_price : ℚ
  stop_loss : ℚ
  take_profit : ℚ
  confidence : ℚ
  risk_reward_ratio : ℚ
  timestamp : ℚ
  reasons : List String
  valid_wyckoff : Bool
  valid_order_flow : Bool
  valid_momentum : Bool
  strategy_profile : String
deriving DecidableEq, Repr

/-- All microsignals of the three module results concatenated in source
order (`wyckoff + order_flow + momentum`). -/
def allSignals (rw : WyckoffResult) (ro : OrderFlowResult) (rm : MomentumResult) : List MS :=
  rw.signals ++ ro.signals ++ rm.signals

/-- The majority direction: Buy iff strictly more Buy than Sell microsignals
(`"Compra" if len(buy_signals) > len(sell_signals) else "Venda"`). -/
def majorityType (l : List MS) : SigType :=
  if (l.filter fun s => s.type = SigType.Compra).length
      > (l.filter fun s => s.type = SigType.Venda).length
  then SigType.Compra else SigType.Venda

/-- The microsignals of the majority direction (`filtered_signals`). -/
def filteredSignals (l : List MS) : List MS :=
  l.filter fun s => s.type = majorityType l

/-- Mean of the `confidence` entries of a microsignal list, reading an absent
key as 0 (`sum(s.get("confidence", 0) ...) / len(...)`). -/
def meanMsConfidence (l : List MS) : ℚ :=
  (l.map fun s => s.confidence.getD 0).sum / (l.length : ℚ)

/-- Stage 0 of the aggregated confidence: the mean confidence of the
majority-direction microsignals. -/
def aggConf0 (rw : WyckoffResult) (ro : OrderFlowResult) (rm : MomentumResult) : ℚ :=
  meanMsConfidence (filteredSignals (allSignals rw ro rm))

/-- Stage 1: folded with the Wyckoff module confidence when it is valid. -/
def aggConf1 (rw : WyckoffResult) (ro : OrderFlowResult) (rm : MomentumResult) : ℚ :=
  if rw.valid then max (aggConf0 rw ro rm) rw.confidence else aggConf0 rw ro rm

/-- Stage 2: folded with the order-flow module confidence when it is valid. -/
def aggConf2 (rw : WyckoffResult) (ro : OrderFlowResult) (rm : MomentumResult) : ℚ :=
  if ro.valid then max (aggConf1 rw ro rm) ro.confidence else aggConf1 rw ro rm

/-- The aggregated decision confidence: mean confidence of the
majority-direction microsignals, then folded through `max` with each module
result confidence whose `valid` flag is set, in source order. -/
def aggregatedConfidence (rw : WyckoffResult) (ro : OrderFlowResult) (rm : MomentumResult) : ℚ :=
  if rm.valid then max (aggConf2 rw ro rm) rm.confidence else aggConf2 rw ro rm

/-- Number of the three modules that produced at least one microsignal of the
majority direction (`strategies_with_signals`). -/
def strategiesWithSignals (rw : WyckoffResult) (ro : OrderFlowResult) (rm : MomentumResult)
    (t : SigType) : ℕ :=
  (if rw.signals.any fun s => s.type = t then 1 else 0)
    + (if ro.signals.any fun s => s.type = t then 1 else 0)
    + (if rm.signals.any fun s => s.type = t then 1 else 0)

/-- The rate-limit rejection test of `generate_trading_signal` (source lines
995-997): a previous decision for this (asset, profile) is on record and
less than the profile's signal interval has elapsed since. -/
def rateLimited (lastSignalTime : Option ℚ) (now interval : ℚ) : Bool :=
  match lastSignalTime with
  | some t0 => decide (now - t0 < interval)
  | none => false

/-- The entry price and the support/resistance levels used for stop/target
selection (source lines 1056-1077): the cached `market_data` last price when
truthy, with the Wyckoff result's levels; otherwise the fallback single-row
database price (`none` when that query fails too), with the levels taken
from the Wyckoff result only when it is valid. -/
def priceAndLevelsOf (rw : WyckoffResult) (marketPrice dbPrice : Option ℚ) :
    Option (ℚ × Option ℚ × Option ℚ) :=
  match optTruthy marketPrice with
  | some p => some (p, rw.support_level, rw.resistance_level)
  | none =>
    match dbPrice with
    | some p => some (p, (if rw.valid then rw.support_level else none),
        (if rw.valid then rw.resistance_level else none))
    | none => none

/-- Stop price: the truthy support (Buy) or resistance (Sell), else the ±1%
fallback band around the entry. -/
def stopPriceOf (stype : SigType) (sup res : Option ℚ) (p : ℚ) : ℚ :=
  if stype = SigType.Compra then (optTruthy sup).getD (p * 0.99)
  else (optTruthy res).getD (p * 1.01)

/-- Target price: the truthy resistance (Buy) or support (Sell), else the
±2% fallback band around the entry. -/
def targetPriceOf (stype : SigType) (sup res : Option ℚ) (p : ℚ) : ℚ :=
  if stype = SigType.Compra then (optTruthy res).getD (p * 1.02)
  else (optTruthy sup).getD (p * 0.98)

/-- Risk/reward ratio `reward / risk if risk > 0 else 0` with
`risk = |entry - stop|` and `reward = |target - entry|`. -/
def rrrOf (entry stop target : ℚ) : ℚ :=
  if 0 < |entry - stop| then |target - entry| / |entry - stop| else 0

/-- Shallow embedding of `MarketAnalyzer.generate_trading_signal` for one
(asset, profile) evaluation.  `lastSignalTime` is the rate-limit ledger entry
for this (asset, profile) key; `now` the evaluation time (seconds);
`marketPrice` the cached `market_data` last price; `dbPrice` the result of
the fallback single-row database query.  Returns the emitted decision (if
any) together with the new ledger entry for the key: the ledger is stamped
with `now` exactly on the acceptance path (source line 1100), every rejection
returns the entry unchanged. -/
def generate_trading_signal (asset profile : String) (cfg : SignalCfg)
    (lastSignalTime : Option ℚ) (now : ℚ)
    (rw : WyckoffResult) (ro : OrderFlowResult) (rm : MomentumResult)
    (marketPrice dbPrice : Option ℚ) : Option TradingSignal × Option ℚ :=
  if ¬cfg.asset_enabled then (none, lastSignalTime)
  else if rateLimited lastSignalTime now cfg.signal_interval then (none, lastSignalTime)
  else if (allSignals rw ro rm).isEmpty then (none, lastSignalTime)
  else if (filteredSignals (allSignals rw ro rm)).isEmpty then (none, lastSignalTime)
  else if aggregatedConfidence rw ro rm < cfg.min_confidence then (none, lastSignalTime)
  else if cfg.confirmation_required
      ∧ strategiesWithSignals rw ro rm (majorityType (allSignals rw ro rm)) < 2 then
    (none, lastSignalTime)
  else
    match priceAndLevelsOf rw marketPrice dbPrice with
    | none => (none, lastSignalTime)
    | some (lastPrice, sup, res) =>
      if rrrOf lastPrice (stopPriceOf (majorityType (allSignals rw ro rm)) sup res lastPrice)
          (targetPriceOf (majorityType (allSignals rw ro rm)) sup res lastPrice)
          < cfg.risk_reward_min then (none, lastSignalTime)
      else
        (some ⟨asset, majorityType (allSignals rw ro rm), lastPrice,
          stopPriceOf (majorityType (allSignals rw ro rm)) sup res lastPrice,
          targetPriceOf (majorityType (allSignals rw ro rm)) sup res lastPrice,
          aggregatedConfidence rw ro rm,
          rrrOf lastPrice (stopPriceOf (majorityType (allSignals rw ro rm)) sup res lastPrice)
            (targetPriceOf (majorityType (allSignals rw ro rm)) sup res lastPrice),
          now,
          (filteredSignals (allSignals rw ro rm)).filterMap (fun s => some s.reason),
          rw.valid, ro.valid, rm.valid, profile⟩,
          some now)

/-- Python string truthiness on an optional value: `None` and `""` are falsy
(`if not signal_timestamp`). -/
def tsTruthy (o : Option String) : Option String :=
  match o with
  | some s => if s = "" then none else some s
  | none => none

/-- A signal entry of the JSON signal file as the executor reads it.  Fields
are optional because the dict may lack keys; `signal_details` passes the
whole entry along, so the record itself is the details. -/
structure SignalMsg where
  timestamp : Option String
  asset : Option String
  type : Option String
  stop_loss : Option ℚ
  take_profit : Option ℚ
  entry_price : Option ℚ
  confidence : Option ℚ
  strategy_profile : Option String
  reasons : List String
deriving DecidableEq, Repr

/-- The required-key validation of `signal_processor_thread` (source lines
787-788): `asset`, `type`, `stop_loss`, `take_profit`, `timestamp` must all
be present. -/
def signalHasRequiredKeys (s : SignalMsg) : Bool :=
  s.asset.isSome && s.type.isSome && s.stop_loss.isSome && s.take_profit.isSome
    && s.timestamp.isSome

/-- An order-queue entry built from a valid signal (`order_details`). -/
structure OrderDetails where
  asset : String
  type : String
  stop_loss : ℚ
  take_profit : ℚ
  signal_details : SignalMsg
deriving DecidableEq, Repr

/-- Processing of a single signal-file entry by `signal_processor_thread`
(source lines 773-803): skip silently when the timestamp is falsy or already
in the processed set; otherwise mark the timestamp processed, and enqueue an
order exactly when all required keys are present (an invalid entry is marked
processed without enqueuing). -/
def processOneSignal (processed : List String) (s : SignalMsg) :
    List String × Option OrderDetails :=
  match tsTruthy s.timestamp with
  | none => (processed, none)
  | some t =>
    if t ∈ processed then (processed, none)
    else if signalHasRequiredKeys s then
      (t :: processed,
        some ⟨s.asset.getD "", s.type.getD "", s.stop_loss.getD 0, s.take_profit.getD 0, s⟩)
    else (t :: processed, none)

/-- One polling pass of `signal_processor_thread` over a freshly read signal
file: fold `processOneSignal` over the entries, accumulating the enqueued
orders in file order. -/
def processSignalFile (processed : List String) : List SignalMsg → List String × List OrderDetails
  | [] => (processed, [])
  | s :: rest =>
    let r := processOneSignal processed s
    let tail := processSignalFile r.1 rest
    (tail.1, (match r.2 with | some o => [o] | none => []) ++ tail.2)

/-- A sequence of polling passes (the signal file re-read over time, possibly
redelivering earlier entries), threading the processed-timestamp set and
concatenating all enqueued orders. -/
def processRuns (processed : List String) : List (List SignalMsg) → List String × List OrderDetails
  | [] => (processed, [])
  | file :: rest =>
    let r := processSignalFile processed file
    let tail := processRuns r.1 rest
    (tail.1, r.2 ++ tail.2)

/-- Shallow embedding of `MT5OrderExecutor.check_trading_allowed`: current
time inside the trading-hours window, and the daily pnl not below the
negative of `max_daily_loss_pct` percent of the approximate day-start balance
(current balance minus the daily pnl).  Times are seconds-of-day rationals. -/
def check_trading_allowed (now startTime endTime : ℚ)
    (balance pnl max_daily_loss_pct : ℚ) : Bool :=
  if ¬(startTime ≤ now ∧ now ≤ endTime) then false
  else
    let initial_balance := balance - pnl
    let max_loss_value := max_daily_loss_pct / 100 * initial_balance
    if pnl < -max_loss_value then false
    else true

/-- Environment of one `order_processor_thread` iteration: the gate inputs,
the exposure state, and the results of the broker-dependent steps
(`calculate_lot_size` and `order_send`) supplied as oracles, since the broker
interface is an external collaborator. -/
structure ExecEnv where
  now : ℚ
  startTime : ℚ
  endTime : ℚ
  balance : ℚ
  pnl : ℚ
  max_daily_loss_pct : ℚ
  openPositions : ℕ
  max_open_trades : ℕ
  lot_size : ℚ
  mt5_ticket : Option ℤ
deriving Repr

/-- Outcome of one `order_processor_thread` iteration on a dequeued order. -/
inductive OrderOutcome where
  | rejectedNotAllowed
  | rejectedMaxOpen
  | rejectedLot
  | recorded (status : String)
deriving DecidableEq, Repr

/-- An `executed_orders` table row as inserted by the order processor. -/
structure OrderRow where
  mt5_ticket : Option ℤ
  asset : String
  type : String
  volume : ℚ
  price : ℚ
  sl : ℚ
  tp : ℚ
  status : String
  signal_timestamp : Option String
  strategy_profile : Option String
deriving DecidableEq, Repr

/-- Shallow embedding of one iteration of
`MT5OrderExecutor.order_processor_thread` on a dequeued order (source lines
662-722): the trading-allowed gate, the exposure gate, the lot-size gate,
then the market order and the audit row (status `OPEN` on a truthy broker
ticket, `FAILED` otherwise).  Returns the outcome and the inserted row, if
any: every rejected order is dropped without a row. -/
def order_processor_step (env : ExecEnv) (o : OrderDetails) : OrderOutcome × Option OrderRow :=
  if ¬check_trading_allowed env.now env.startTime env.endTime
      env.balance env.pnl env.max_daily_loss_pct then
    (OrderOutcome.rejectedNotAllowed, none)
  else if env.max_open_trades ≤ env.openPositions then
    (OrderOutcome.rejectedMaxOpen, none)
  else if env.lot_size ≤ 0 then
    (OrderOutcome.rejectedLot, none)
  else
    let status := match env.mt5_ticket with
      | some tk => if tk = 0 then "FAILED" else "OPEN"
      | none => "FAILED"
    (OrderOutcome.recorded status,
      some ⟨env.mt5_ticket, o.asset, o.type, env.lot_size,
        o.signal_details.entry_price.getD 0, o.stop_loss, o.take_profit, status,
        o.signal_details.timestamp, o.signal_details.strategy_profile⟩)

/-- A row of the `daily_stats` table / the in-memory daily statistics. -/
structure DailyStats where
  date : String
  trades : ℕ
  pnl : ℚ
  wins : ℕ
  losses : ℕ
deriving DecidableEq, Repr

/-- Shallow embedding of `MT5OrderExecutor.update_daily_stats`: reload (reset
to the stored row for today, or zeros) when the calendar day changed, then
increment the trade count, add the realized profit to the pnl, and bump the
win or loss counter. -/
def update_daily_stats (stats : DailyStats) (today : String)
    (dbToday : Option DailyStats) (profit : ℚ) : DailyStats :=
  let s := if stats.date ≠ today then
      (match dbToday with
       | some d => d
       | none => ⟨today, 0, 0, 0, 0⟩)
    else stats
  { s with
    trades := s.trades + 1
    pnl := s.pnl + profit
    wins := if 0 < profit then s.wins + 1 else s.wins
    losses := if 0 < profit then s.losses else s.losses + 1 }

/-- The broker-side view of a position, as returned by `positions_get`. -/
structure PositionInfo where
  symbol : String
  volume : ℚ
  ptype : ℕ
deriving Repr

/-- The broker result of `order_send`. -/
structure SendResult where
  retcode : ℕ
  order : ℕ
deriving Repr

/-- Persistent executor state touched (or, here, not touched) by
`close_position`: the daily statistics and the orders table. -/
structure ExecState where
  daily_stats : DailyStats
  orders : List OrderRow
deriving Repr

/-- Shallow embedding of `MT5OrderExecutor.close_position` (source lines
495-569): look the position up, send the opposite market order, and report
success iff the broker confirms (`retcode == TRADE_RETCODE_DONE`).  The
source never updates the daily statistics or the orders table on any path:
the statistics update after a close is left as a commented-out TODO
(`# self.update_daily_stats(profit) # Implementar obtenção do profit`,
line 563), so the returned state is the input state on every path, including
the successful close. -/
def close_position (st : ExecState) (mt5_initialized : Bool)
    (position : Option PositionInfo) (sendRes : Option SendResult)
    (tradeRetcodeDone : ℕ) : Bool × ExecState :=
  if ¬mt5_initialized then (false, st)
  else
    match position with
    | none => (false, st)
    | some _ =>
      match sendRes with
      | none => (false, st)
      | some r =>
        if r.retcode ≠ tradeRetcodeDone then (false, st)
        else (true, st)

/-- The rate-limit ledger `last_signal_time`, keyed by (asset, profile). -/
abbrev StampMap := String × String → Option ℚ

/-- One Decision Engine evaluation event: the (asset, profile) key, the wall
clock, the resolved profile configuration, the three analysis results and the
price sources of that tick. -/
structure GenEvent where
  key : String × String
  now : ℚ
  cfg : SignalCfg
  rw : WyckoffResult
  ro : OrderFlowResult
  rm : MomentumResult
  marketPrice : Option ℚ
  dbPrice : Option ℚ

/-- One evaluation against the rate-limit ledger: run
`generate_trading_signal` on the ledger entry of the event's key and write
back the entry the call returns (unchanged unless a decision was emitted). -/
def stepGen (st : StampMap) (e : GenEvent) : Option TradingSignal × StampMap :=
  let r := generate_trading_signal e.key.1 e.key.2 e.cfg (st e.key) e.now
    e.rw e.ro e.rm e.marketPrice e.dbPrice
  (r.1, fun k => if k = e.key then r.2 else st k)

/-- Run a trace of evaluation events, collecting `(key, time)` for every
emitted decision in trace order. -/
def runGen (st : StampMap) : List GenEvent → List ((String × String) × ℚ)
  | [] => []
  | e :: es =>
    let r := stepGen st e
    (match r.1 with | some _ => [(e.key, e.now)] | none => []) ++ runGen r.2 es

/-- The emission times of a trace for one (asset, profile) key. -/
def keyEmissions (st : StampMap) (es : List GenEvent) (k : String × String) : List ℚ :=
  (runGen st es).filterMap fun p => if p.1 = k then some p.2 else none

/-- The empty rate-limit ledger (process start). -/
def emptyStamps : StampMap := fun _ => none

/-- Inversion on the acceptance path of `generate_trading_signal`: an emitted
decision carries the aggregated confidence, its risk/reward ratio is the
`|target-entry| / |entry-stop|` quotient and passed the profile minimum, its
confidence passed the profile minimum, the ledger entry is stamped with the
emission time, and the rate limit had elapsed against any recorded stamp. -/
theorem gts_emit_spec (asset profile : String) (cfg : SignalCfg)
    (lastSignalTime : Option ℚ) (now : ℚ)
    (rw : WyckoffResult) (ro : OrderFlowResult) (rm : MomentumResult)
    (marketPrice dbPrice : Option ℚ) (sig : TradingSignal) (st2 : Option ℚ)
    (h : generate_trading_signal asset profile cfg lastSignalTime now rw ro rm
      marketPrice dbPrice = (some sig, st2)) :
    sig.confidence = aggregatedConfidence rw ro rm ∧
    sig.risk_reward_ratio
      = |sig.take_profit - sig.entry_price| / |sig.entry_price - sig.stop_loss| ∧
    cfg.risk_reward_min ≤ sig.risk_reward_ratio ∧
    cfg.min_confidence ≤ sig.confidence ∧
    st2 = some now ∧
    (∀ t0, lastSignalTime = some t0 → cfg.signal_interval ≤ now - t0) := by
  unfold generate_trading_signal at h
  repeat' split at h
  all_goals simp only [Prod.mk.injEq, Option.some.injEq, reduceCtorEq, false_and, and_false] at h
  obtain ⟨h1, h2⟩ := h
  subst h1
  subst h2
  rename_i henb hrl hse hfe hcl hcr hsc p sup res hpl hrrr
  refine ⟨rfl, ?_, ?_, ?_, rfl, ?_⟩
  · show rrrOf p (stopPriceOf (majorityType (allSignals rw ro rm)) sup res p)
        (targetPriceOf (majorityType (allSignals rw ro rm)) sup res p) = _
    unfold rrrOf
    dsimp only
    split
    · rfl
    · rename_i hr0
      have hz : |p - stopPriceOf (majorityType (allSignals rw ro rm)) sup res p| = 0 :=
        le_antisymm (not_lt.mp hr0) (abs_nonneg _)
      rw [hz, div_zero]
  · exact le_of_not_lt hrrr
  · exact le_of_not_lt hcl
  · intro t0 ht0
    rw [ht0] at hrl
    simpa [rateLimited, not_lt] using hrl

/-- A rejected evaluation does not stamp the rate-limit ledger: when
`generate_trading_signal` emits nothing, the returned ledger entry is the
input entry. -/
theorem gts_none_stamp (asset profile : String) (cfg : SignalCfg)
    (lastSignalTime : Option ℚ) (now : ℚ)
    (rw : WyckoffResult) (ro : OrderFlowResult) (rm : MomentumResult)
    (marketPrice dbPrice : Option ℚ) (st2 : Option ℚ)
    (h : generate_trading_signal asset profile cfg lastSignalTime now rw ro rm
      marketPrice dbPrice = (none, st2)) :
    st2 = lastSignalTime := by
  unfold generate_trading_signal at h
  repeat' split at h
  all_goals simp only [Prod.mk.injEq, reduceCtorEq, false_and, true_and] at h
  all_goals exact h.symm

theorem stepGen_none (st : StampMap) (e : GenEvent) (st2 : StampMap)
    (h : stepGen st e = (none, st2)) : ∀ k, st2 k = st k := by
  unfold stepGen at h
  simp only [Prod.mk.injEq] at h
  obtain ⟨h1, h2⟩ := h
  have hg : generate_trading_signal e.key.1 e.key.2 e.cfg (st e.key) e.now
      e.rw e.ro e.rm e.marketPrice e.dbPrice
      = (none, (generate_trading_signal e.key.1 e.key.2 e.cfg (st e.key) e.now
        e.rw e.ro e.rm e.marketPrice e.dbPrice).2) := by
    rw [← h1]
  have hs := gts_none_stamp _ _ _ _ _ _ _ _ _ _ _ hg
  intro k
  rw [← h2]
  by_cases hk : k = e.key
  · simp [hk, hs]
  · simp [hk]

theorem stepGen_some (st : StampMap) (e : GenEvent) (sig : TradingSignal) (st2 : StampMap)
    (h : stepGen st e = (some sig, st2)) :
    st2 e.key = some e.now ∧ (∀ k, k ≠ e.key → st2 k = st k)
      ∧ (∀ t0, st e.key = some t0 → e.cfg.signal_interval ≤ e.now - t0) := by
  unfold stepGen at h
  simp only [Prod.mk.injEq] at h
  obtain ⟨h1, h2⟩ := h
  have hg : generate_trading_signal e.key.1 e.key.2 e.cfg (st e.key) e.now
      e.rw e.ro e.rm e.marketPrice e.dbPrice
      = (some sig, (generate_trading_signal e.key.1 e.key.2 e.cfg (st e.key) e.now
        e.rw e.ro e.rm e.marketPrice e.dbPrice).2) := by
    rw [← h1]
  have spec := gts_emit_spec _ _ _ _ _ _ _ _ _ _ _ _ hg
  refine ⟨?_, ?_, ?_⟩
  · rw [← h2]
    simp [spec.2.2.2.2.1]
  · intro k hk
    rw [← h2]
    simp [hk]
  · exact spec.2.2.2.2.2

theorem keyEmissions_cons (st : StampMap) (e : GenEvent) (es : List GenEvent)
    (k : String × String) :
    keyEmissions st (e :: es) k =
      (match (stepGen st e).1 with
        | some _ => if e.key = k then [e.now] else []
        | none => []) ++ keyEmissions (stepGen st e).2 es k := by
  cases hsig : (stepGen st e).1 <;>
    by_cases hk : e.key = k <;>
      simp [keyEmissions, runGen, hsig, List.filterMap_append, List.filterMap_cons, hk]

theorem keyEmissions_lb (ival : ℚ) (hiv : 0 ≤ ival) (k : String × String) :
    ∀ (es : List GenEvent) (st : StampMap) (t0 : ℚ), st k = some t0 →
      (∀ e ∈ es, e.key = k → e.cfg.signal_interval = ival) →
      ∀ t ∈ keyEmissions st es k, t0 + ival ≤ t := by
  intro es
  induction es with
  | nil =>
    intro st t0 h0 hconst t ht
    simp [keyEmissions, runGen] at ht
  | cons e es ih =>
    intro st t0 h0 hconst t ht
    rw [keyEmissions_cons] at ht
    rcases hstep : stepGen st e with ⟨osig, st2⟩
    rw [hstep] at ht
    cases osig with
    | none =>
      simp only [List.nil_append] at ht
      have hk := stepGen_none st e st2 hstep
      exact ih st2 t0 ((hk k).trans h0) (fun x hx => hconst x (List.mem_cons_of_mem _ hx)) t ht
    | some sig =>
      obtain ⟨hstamp, hother, hrate⟩ := stepGen_some st e sig st2 hstep
      by_cases hke : e.key = k
      · rw [if_pos hke] at ht
        have hiv_e : e.cfg.signal_interval = ival :=
          hconst e (List.mem_cons_self _ _) hke
        have hnow : t0 + ival ≤ e.now := by
          have := hrate t0 (by rw [hke]; exact h0)
          rw [hiv_e] at this
          linarith
        rcases List.mem_append.mp ht with hh | htail
        · rcases List.mem_singleton.mp hh with rfl
          exact hnow
        · have h0' : st2 k = some e.now := by rw [← hke]; exact hstamp
          have := ih st2 e.now h0' (fun x hx => hconst x (List.mem_cons_of_mem _ hx)) t htail
          linarith
      · rw [if_neg hke] at ht
        simp only [List.nil_append] at ht
        exact ih st2 t0 ((hother k (fun hx => hke hx.symm)).trans h0)
          (fun x hx => hconst x (List.mem_cons_of_mem _ hx)) t ht

theorem keyEmissions_pairwise (ival : ℚ) (hiv : 0 ≤ ival) (k : String × String) :
    ∀ (es : List GenEvent) (st : StampMap),
      (∀ e ∈ es, e.key = k → e.cfg.signal_interval = ival) →
      List.Pairwise (fun a b => a + ival ≤ b) (keyEmissions st es k) := by
  intro es
  induction es with
  | nil =>
    intro st hconst
    simp [keyEmissions, runGen]
  | cons e es ih =>
    intro st hconst
    rw [keyEmissions_cons]
    rcases hstep : stepGen st e with ⟨osig, st2⟩
    cases osig with
    | none =>
      simpa using ih st2 (fun x hx => hconst x (List.mem_cons_of_mem _ hx))
    | some sig =>
      obtain ⟨hstamp, hother, hrate⟩ := stepGen_some st e sig st2 hstep
      by_cases hke : e.key = k
      · rw [if_pos hke]
        simp only [List.singleton_append]
        refine List.Pairwise.cons ?_ (ih st2 (fun x hx => hconst x (List.mem_cons_of_mem _ hx)))
        intro b hb
        have h0' : st2 k = some e.now := by rw [← hke]; exact hstamp
        exact keyEmissions_lb ival hiv k es st2 e.now h0'
          (fun x hx => hconst x (List.mem_cons_of_mem _ hx)) b hb
      · rw [if_neg hke]
        simpa using ih st2 (fun x hx => hconst x (List.mem_cons_of_mem _ hx))

/-- C3: for every instrument and profile, two decisions for that (instrument,
profile) key are never emitted less than the profile's signal interval apart:
over any trace of Decision Engine evaluations whose events for the key carry
the profile's signal interval `ival ≥ 0`, the emission times recorded for the
key are pairwise at least `ival` apart (the ledger is stamped exactly on
acceptance, and a rejected evaluation leaves the ledger unchanged, cf.
`gts_emit_spec` and `gts_none_stamp`). -/
theorem rate_limit_spacing (ival : ℚ) (k : String × String) (es : List GenEvent)
    (hiv : 0 ≤ ival)
    (hconst : ∀ e ∈ es, e.key = k → e.cfg.signal_interval = ival) :
    List.Pairwise (fun a b => a + ival ≤ b) (keyEmissions emptyStamps es k) :=
  keyEmissions_pairwise ival hiv k es emptyStamps hconst

/-- A Wyckoff result emitting one Buy microsignal with support 99 and
resistance 103 (used by concrete witness evaluations). -/
def wResW : WyckoffResult :=
  ⟨true, none, [⟨SigType.Compra, "Acumulação próxima ao suporte", none, none⟩],
    0.7, some 99, some 103, 0, 7, none⟩

/-- A profile signal configuration with minimum confidence 0.5, no
confirmation requirement, minimum risk/reward 1, signal interval 300 s. -/
def cfgW : SignalCfg := ⟨true, 0.5, false, 1, 300⟩

/-- A concrete evaluation event for the (winfut, moderado) key at time `t`. -/
def evW (t : ℚ) : GenEvent :=
  ⟨("winfut", "moderado"), t, cfgW, wResW, OrderFlowResult.invalid,
    MomentumResult.invalid, some 100, none⟩

/-- Witness for C3: the spacing theorem applied to a concrete two-event trace
for the (winfut, moderado) key with interval 300. -/
theorem rate_limit_spacing_witness :
    List.Pairwise (fun a b => a + 300 ≤ b)
      (keyEmissions emptyStamps [evW 0, evW 100] ("winfut", "moderado")) := by
  refine rate_limit_spacing 300 ("winfut", "moderado") [evW 0, evW 100] (by norm_num) ?_
  intro e he hk
  rcases List.mem_cons.mp he with rfl | he2
  · rfl
  · rcases List.mem_cons.mp he2 with rfl | h3
    · rfl
    · cases h3

/-- C1 (code bug): closing a position never records the realized profit and
never updates the Daily Statistics Ledger or the orders table, on any input
-- including a successful broker close (second conjunct) -- because the
`update_daily_stats(profit)` call in `close_position` is commented out
(source line 563, left as a TODO).  This contradicts the specified
Open-to-Closed transition behaviour. -/
theorem close_position_no_ledger_update :
    (∀ (st : ExecState) (ini : Bool) (pos : Option PositionInfo)
      (sr : Option SendResult) (done : ℕ),
      (close_position st ini pos sr done).2 = st) ∧
    (close_position ⟨⟨"2025-05-23", 0, 0, 0, 0⟩, []⟩ true
        (some ⟨"WINFUT", 1, 0⟩) (some ⟨10009, 77⟩) 10009).1 = true := by
  constructor
  · intro st ini pos sr done
    unfold close_position
    repeat' split
    all_goals rfl
  · rfl

/-- C6: whenever the Daily Statistics Ledger cumulative pnl is below the
negative of `max_daily_loss_pct` percent of the approximate day-start balance
(current balance minus the daily pnl), the trading-allowed gate returns
false, and the Order Execution Worker rejects every dequeued decision,
whatever its confidence or any other field. -/
theorem daily_loss_breaker (env : ExecEnv)
    (h : env.pnl < -(env.max_daily_loss_pct / 100 * (env.balance - env.pnl))) :
    check_trading_allowed env.now env.startTime env.endTime
      env.balance env.pnl env.max_daily_loss_pct = false
    ∧ ∀ o : OrderDetails,
        order_processor_step env o = (OrderOutcome.rejectedNotAllowed, none) := by
  have hc : check_trading_allowed env.now env.startTime env.endTime
      env.balance env.pnl env.max_daily_loss_pct = false := by
    unfold check_trading_allowed
    split
    · rfl
    · rw [if_pos h]
  refine ⟨hc, fun o => ?_⟩
  unfold order_processor_step
  rw [hc]
  simp

def envC6 : ExecEnv := ⟨36000, 32400, 64500, 100000, -4000, 3, 0, 5, 1, none⟩

theorem daily_loss_breaker_witness :
    (envC6.pnl < -(envC6.max_daily_loss_pct / 100 * (envC6.balance - envC6.pnl))) ∧
    (check_trading_allowed envC6.now envC6.startTime envC6.endTime
        envC6.balance envC6.pnl envC6.max_daily_loss_pct = false
      ∧ ∀ o : OrderDetails,
          order_processor_step envC6 o = (OrderOutcome.rejectedNotAllowed, none)) :=
  ⟨by norm_num [envC6], daily_loss_breaker envC6 (by norm_num [envC6])⟩

theorem processOne_mono (processed : List String) (s : SignalMsg) (x : String)
    (h : x ∈ processed) : x ∈ (processOneSignal processed s).1 := by
  unfold processOneSignal
  repeat' split
  all_goals first
    | exact h
    | exact List.mem_cons_of_mem _ h

theorem processSignalFile_mono (x : String) : ∀ (file : List SignalMsg) (processed : List String),
    x ∈ processed → x ∈ (processSignalFile processed file).1 := by
  intro file
  induction file with
  | nil => intro processed h; exact h
  | cons s rest ih =>
    intro processed h
    exact ih _ (processOne_mono processed s x h)

theorem tsTruthy_some_inv (o : Option String) (t : String)
    (h : tsTruthy o = some t) : o = some t := by
  rcases o with _ | u
  · simp [tsTruthy] at h
  · by_cases hu : u = ""
    · simp [tsTruthy, hu] at h
    · simp only [tsTruthy, hu, if_false, Option.some.injEq] at h
      rw [h]

theorem processSignalFile_spec (t : String) :
    ∀ (file : List SignalMsg) (processed : List String),
    ((processSignalFile processed file).2.countP
        fun o => decide (o.signal_details.timestamp = some t))
      ≤ (if t ∈ processed then 0 else 1)
    ∧ (t ∈ processed → t ∈ (processSignalFile processed file).1)
    ∧ (0 < ((processSignalFile processed file).2.countP
        fun o => decide (o.signal_details.timestamp = some t))
        → t ∈ (processSignalFile processed file).1) := by
  intro file
  induction file with
  | nil =>
    intro processed
    refine ⟨by simp [processSignalFile], fun h => h, by simp [processSignalFile]⟩
  | cons s rest ih =>
    intro processed
    show ((processSignalFile processed (s :: rest)).2.countP _) ≤ _ ∧ _
    unfold processSignalFile
    rcases hone : processOneSignal processed s with ⟨p1, oo⟩
    have hmono : ∀ y, y ∈ processed → y ∈ p1 := by
      intro y hy
      have := processOne_mono processed s y hy
      rw [hone] at this
      exact this
    cases oo with
    | none =>
      simp only [List.nil_append]
      obtain ⟨ih1, ih2, ih3⟩ := ih p1
      refine ⟨le_trans ih1 ?_, fun h => ih2 (hmono t h), ih3⟩
      by_cases hmem : t ∈ processed
      · simp [hmem, hmono t hmem]
      · split <;> simp
    | some o =>
      have hdet : o.signal_details = s ∧ ∃ t', tsTruthy s.timestamp = some t'
          ∧ t' ∉ processed ∧ p1 = t' :: processed := by
        unfold processOneSignal at hone
        repeat' split at hone
        all_goals simp only [Prod.mk.injEq, reduceCtorEq, and_false, false_and,
          Option.some.injEq] at hone
        rename_i t' hts hmem hkeys
        obtain ⟨h1, h2⟩ := hone
        subst h2
        exact ⟨rfl, t', hts, hmem, h1.symm⟩
      obtain ⟨hdet_s, t', hts', hfresh, hp1⟩ := hdet
      have hsts : s.timestamp = some t' := tsTruthy_some_inv _ _ hts'
      obtain ⟨ih1, ih2, ih3⟩ := ih p1
      simp only [List.singleton_append, List.countP_cons]
      by_cases htt : t = t'
      · subst htt
        have htp1 : t ∈ p1 := by rw [hp1]; exact List.mem_cons_self _ _
        have hcnt0 : ((processSignalFile p1 rest).2.countP
            fun o => decide (o.signal_details.timestamp = some t)) = 0 := by
          have h1 := ih1
          rw [if_pos htp1] at h1
          omega
        have hmatch : (decide (o.signal_details.timestamp = some t) : Bool) = true := by
          simp [hdet_s, hsts]
        refine ⟨?_, fun h => absurd h hfresh, fun _ => ih2 htp1⟩
        rw [if_neg hfresh, hcnt0, hmatch]
        simp
      · have hmatch : (decide (o.signal_details.timestamp = some t) : Bool) = false := by
          simp only [hdet_s, hsts, decide_eq_false_iff_not, Option.some.injEq]
          exact fun hh => htt hh.symm
        rw [hmatch]
        simp only [Bool.false_eq_true, if_false, Nat.add_zero]
        refine ⟨le_trans ih1 ?_, fun h => ih2 (hmono t h), ih3⟩
        by_cases hmem : t ∈ processed
        · simp [hmem, hmono t hmem]
        · have hnp1 : t ∉ p1 := by
            rw [hp1]
            intro hc
            rcases List.mem_cons.mp hc with rfl | hc2
            · exact htt rfl
            · exact hmem hc2
          simp [hmem, hnp1]

theorem processSignalFile_cons (processed : List String) (s : SignalMsg)
    (rest : List SignalMsg) :
    processSignalFile processed (s :: rest)
      = ((processSignalFile (processOneSignal processed s).1 rest).1,
        (match (processOneSignal processed s).2 with | some o => [o] | none => [])
          ++ (processSignalFile (processOneSignal processed s).1 rest).2) := rfl

theorem processRuns_cons (processed : List String) (file : List SignalMsg)
    (rest : List (List SignalMsg)) :
    processRuns processed (file :: rest)
      = ((processRuns (processSignalFile processed file).1 rest).1,
        (processSignalFile processed file).2
          ++ (processRuns (processSignalFile processed file).1 rest).2) := rfl

theorem processRuns_spec (t : String) :
    ∀ (runs : List (List SignalMsg)) (processed : List String),
    ((processRuns processed runs).2.countP
        fun o => decide (o.signal_details.timestamp = some t))
      ≤ (if t ∈ processed then 0 else 1)
    ∧ (t ∈ processed → t ∈ (processRuns processed runs).1) := by
  intro runs
  induction runs with
  | nil =>
    intro processed
    refine ⟨by simp [processRuns], fun h => h⟩
  | cons file rest ih =>
    intro processed
    rw [processRuns_cons]
    obtain ⟨f1, f2, f3⟩ := processSignalFile_spec t file processed
    obtain ⟨ih1, ih2⟩ := ih (processSignalFile processed file).1
    simp only [List.countP_append]
    constructor
    · by_cases hmem : t ∈ processed
      · rw [if_pos hmem] at f1 ⊢
        rw [if_pos (f2 hmem)] at ih1
        omega
      · rw [if_neg hmem] at f1 ⊢
        by_cases hcnt : 0 < (processSignalFile processed file).2.countP
            fun o => decide (o.signal_details.timestamp = some t)
        · rw [if_pos (f3 hcnt)] at ih1
          omega
        · by_cases hm1 : t ∈ (processSignalFile processed file).1
          · rw [if_pos hm1] at ih1; omega
          · rw [if_neg hm1] at ih1; omega
    · intro hmem
      exact ih2 (f2 hmem)

/-- C2: at most one order attempt is ever made per decision identity: over
any sequence of signal-file polling passes starting from an empty
processed-identity set (even with the same decision delivered in several
passes or several times in one pass), the orders enqueued for any timestamp
`t` number at most one, and hence at most one `executed_orders` row can ever
be inserted for it (the order processor inserts at most one row per dequeued
order, cf. `order_processor_step`). -/
theorem at_most_one_order_per_identity (runs : List (List SignalMsg)) (t : String) :
    ((processRuns [] runs).2.countP
      fun o => decide (o.signal_details.timestamp = some t)) ≤ 1 := by
  have h := (processRuns_spec t runs []).1
  simpa using h

/-- C10: a signal entry carrying a timestamp but missing a required key is
marked processed without being enqueued, and that identity is poisoned: no
order for it is ever enqueued afterwards, not even for a later corrected
signal bearing the same timestamp in a later polling pass. -/
theorem invalid_signal_identity_poisoned (s : SignalMsg) (t : String)
    (rest : List SignalMsg) (future : List (List SignalMsg)) (processed : List String)
    (hts : tsTruthy s.timestamp = some t)
    (hinv : signalHasRequiredKeys s = false) :
    t ∈ (processSignalFile processed (s :: rest)).1 ∧
    ((processRuns processed ((s :: rest) :: future)).2.countP
        fun o => decide (o.signal_details.timestamp = some t)) = 0 := by
  have hfilemem : t ∈ (processSignalFile processed (s :: rest)).1 := by
    by_cases hmem : t ∈ processed
    · exact (processSignalFile_spec t (s :: rest) processed).2.1 hmem
    · have hone : processOneSignal processed s = (t :: processed, none) := by
        simp [processOneSignal, hts, hmem, hinv]
      simp only [processSignalFile_cons, hone]
      exact processSignalFile_mono t rest (t :: processed) (List.mem_cons_self _ _)
  refine ⟨hfilemem, ?_⟩
  have hcnt1 : ((processSignalFile processed (s :: rest)).2.countP
      fun o => decide (o.signal_details.timestamp = some t)) = 0 := by
    by_cases hmem : t ∈ processed
    · have h1 := (processSignalFile_spec t (s :: rest) processed).1
      rw [if_pos hmem] at h1
      omega
    · have hone : processOneSignal processed s = (t :: processed, none) := by
        simp [processOneSignal, hts, hmem, hinv]
      have h1 := (processSignalFile_spec t rest (t :: processed)).1
      rw [if_pos (List.mem_cons_self _ _)] at h1
      simp only [processSignalFile_cons, hone, List.nil_append]
      omega
  have hcnt2 := (processRuns_spec t future (processSignalFile processed (s :: rest)).1).1
  rw [if_pos hfilemem] at hcnt2
  rw [processRuns_cons]
  simp only [List.countP_append]
  omega

/-- A signal entry with a timestamp but no `asset` key (invalid). -/
def sBad : SignalMsg :=
  ⟨some "2025-05-23T10:00:00", none, some "BUY", some 129800, some 130900, none, none, none, []⟩

/-- A corrected, fully valid signal bearing the same timestamp as `sBad`. -/
def sGood : SignalMsg :=
  ⟨some "2025-05-23T10:00:00", some "WINFUT", some "BUY", some 129800, some 130900,
    some 130200, some 0.8, some "moderado", []⟩

/-- Witness for C10: the invalid signal `sBad` is marked processed without an
order, and the later corrected signal `sGood` with the same timestamp is
never executed. -/
theorem invalid_signal_identity_poisoned_witness :
    (tsTruthy sBad.timestamp = some "2025-05-23T10:00:00"
      ∧ signalHasRequiredKeys sBad = false) ∧
    ("2025-05-23T10:00:00" ∈ (processSignalFile [] [sBad]).1 ∧
      ((processRuns [] ([sBad] :: [[sGood]])).2.countP
        fun o => decide (o.signal_details.timestamp = some "2025-05-23T10:00:00")) = 0) :=
  ⟨⟨by decide, by decide⟩,
    invalid_signal_identity_poisoned sBad "2025-05-23T10:00:00" [] [[sGood]] []
      (by decide) (by decide)⟩

/-- C7: in the order-flow aggression sub-analysis on a frame of at least 20
rows, strength equals the last aggression balance divided by
`max(1, |20-period moving average of balance|)`; when strength exceeds the
profile's aggression threshold, a Buy microsignal is emitted if the last
balance is positive and a Sell microsignal if it is negative, in both cases
with sub-analysis confidence `min(0.9, 0.5 + |strength|/10)`; and for a
nonnegative threshold, strength above the threshold always emits a
directional microsignal. -/
theorem aggression_strength_spec (df : Frame) (cfg : OrderFlowCfg)
    (h20 : 20 ≤ df.length) (hen : cfg.enabled = true) :
    (analyze_order_flow df cfg).strength
      = ((df.map MarketRow.agressao_saldo).getLast?).getD 0
          / max 1 |qmean (lastN 20 (df.map MarketRow.agressao_saldo))|
    ∧ (cfg.aggression_threshold < (analyze_order_flow df cfg).strength →
        0 < ((df.map MarketRow.agressao_saldo).getLast?).getD 0 →
        ⟨SigType.Compra, "Forte agressão compradora",
            some (analyze_order_flow df cfg).strength, none⟩
          ∈ (analyze_order_flow df cfg).signals
        ∧ (aggressionAnalysis (df.map MarketRow.agressao_saldo) cfg.aggression_threshold).2.1
            = min 0.9 (0.5 + |(analyze_order_flow df cfg).strength| / 10))
    ∧ (cfg.aggression_threshold < (analyze_order_flow df cfg).strength →
        ((df.map MarketRow.agressao_saldo).getLast?).getD 0 < 0 →
        ⟨SigType.Venda, "Forte agressão vendedora",
            some (-(analyze_order_flow df cfg).strength), none⟩
          ∈ (analyze_order_flow df cfg).signals
        ∧ (aggressionAnalysis (df.map MarketRow.agressao_saldo) cfg.aggression_threshold).2.1
            = min 0.9 (0.5 + |(analyze_order_flow df cfg).strength| / 10))
    ∧ (0 ≤ cfg.aggression_threshold →
        cfg.aggression_threshold < (analyze_order_flow df cfg).strength →
        (aggressionAnalysis (df.map MarketRow.agressao_saldo) cfg.aggression_threshold).1
          ≠ []) := by
  have hne : df.isEmpty = false := by
    cases df
    · simp at h20
    · rfl
  have hlen : 20 ≤ (df.map MarketRow.agressao_saldo).length := by simpa using h20
  have hma : lastSaldoMa20 (df.map MarketRow.agressao_saldo)
      = qmean (lastN 20 (df.map MarketRow.agressao_saldo)) := by
    unfold lastSaldoMa20
    rw [if_pos hlen]
  have hof : analyze_order_flow df cfg = ⟨true,
      (aggressionAnalysis (df.map MarketRow.agressao_saldo) cfg.aggression_threshold).1
        ++ (absorptionAnalysis df cfg.absorption_threshold
            (aggressionAnalysis (df.map MarketRow.agressao_saldo)
              cfg.aggression_threshold).2.1).1
        ++ (exhaustionAnalysis df
            (absorptionAnalysis df cfg.absorption_threshold
              (aggressionAnalysis (df.map MarketRow.agressao_saldo)
                cfg.aggression_threshold).2.1).2).1,
      (exhaustionAnalysis df
        (absorptionAnalysis df cfg.absorption_threshold
          (aggressionAnalysis (df.map MarketRow.agressao_saldo)
            cfg.aggression_threshold).2.1).2).2,
      ((df.map MarketRow.agressao_saldo).getLast?).getD 0,
      lastSaldoMa20 (df.map MarketRow.agressao_saldo),
      (aggressionAnalysis (df.map MarketRow.agressao_saldo) cfg.aggression_threshold).2.2⟩ := by
    unfold analyze_order_flow
    rw [hne, hen]
    simp
  have h22 : (aggressionAnalysis (df.map MarketRow.agressao_saldo)
      cfg.aggression_threshold).2.2 = aggStrength (df.map MarketRow.agressao_saldo) := by
    unfold aggressionAnalysis
    repeat' split
    all_goals rfl
  have hstr : (analyze_order_flow df cfg).strength
      = aggStrength (df.map MarketRow.agressao_saldo) := by
    rw [hof]
    exact h22
  have hdenpos : (0 : ℚ) < max 1 |lastSaldoMa20 (df.map MarketRow.agressao_saldo)| :=
    lt_of_lt_of_le one_pos (le_max_left _ _)
  refine ⟨by rw [hstr]; unfold aggStrength; rw [hma], ?_, ?_, ?_⟩
  · intro hthr hpos
    rw [hstr] at hthr ⊢
    have hagg : aggressionAnalysis (df.map MarketRow.agressao_saldo) cfg.aggression_threshold
        = ([⟨SigType.Compra, "Forte agressão compradora",
            some (aggStrength (df.map MarketRow.agressao_saldo)), none⟩],
          min 0.9 (0.5 + aggStrength (df.map MarketRow.agressao_saldo) / 10),
          aggStrength (df.map MarketRow.agressao_saldo)) := by
      unfold aggressionAnalysis
      rw [if_pos hthr, if_pos hpos]
    have hspos : 0 < aggStrength (df.map MarketRow.agressao_saldo) :=
      div_pos hpos hdenpos
    constructor
    · rw [hof]
      show _ ∈ (aggressionAnalysis (df.map MarketRow.agressao_saldo)
        cfg.aggression_threshold).1 ++ _ ++ _
      rw [hagg]
      simp
    · rw [hagg, abs_of_pos hspos]
  · intro hthr hneg
    rw [hstr] at hthr ⊢
    have hagg : aggressionAnalysis (df.map MarketRow.agressao_saldo) cfg.aggression_threshold
        = ([⟨SigType.Venda, "Forte agressão vendedora",
            some (-(aggStrength (df.map MarketRow.agressao_saldo))), none⟩],
          min 0.9 (0.5 + |aggStrength (df.map MarketRow.agressao_saldo)| / 10),
          aggStrength (df.map MarketRow.agressao_saldo)) := by
      unfold aggressionAnalysis
      rw [if_pos hthr, if_neg (by exact fun hc => absurd hneg (asymm hc)), if_pos hneg]
    constructor
    · rw [hof]
      show _ ∈ (aggressionAnalysis (df.map MarketRow.agressao_saldo)
        cfg.aggression_threshold).1 ++ _ ++ _
      rw [hagg]
      simp
    · rw [hagg]
  · intro hthr0 hthr
    rw [hstr] at hthr
    have hspos : 0 < aggStrength (df.map MarketRow.agressao_saldo) :=
      lt_of_le_of_lt hthr0 hthr
    have hpos : 0 < ((df.map MarketRow.agressao_saldo).getLast?).getD 0 := by
      rcases div_pos_iff.mp hspos with ⟨h1, _⟩ | ⟨_, h2⟩
      · exact h1
      · exact absurd hdenpos (asymm h2)
    unfold aggressionAnalysis
    rw [if_pos hthr, if_pos hpos]
    simp

def dfC7 : Frame := List.replicate 20 ⟨100, 100, 100, 50, 3, 1, 2⟩

def ofCfgC7 : OrderFlowCfg := ⟨true, 0.8, 2.0, 3.0⟩

theorem aggression_strength_spec_witness :
    (20 ≤ dfC7.length ∧ ofCfgC7.enabled = true) ∧
    (⟨SigType.Compra, "Forte agressão compradora",
        some (analyze_order_flow dfC7 ofCfgC7).strength, none⟩
      ∈ (analyze_order_flow dfC7 ofCfgC7).signals
    ∧ (aggressionAnalysis (dfC7.map MarketRow.agressao_saldo)
          ofCfgC7.aggression_threshold).2.1
        = min 0.9 (0.5 + |(analyze_order_flow dfC7 ofCfgC7).strength| / 10)) := by
  have hlen : 20 ≤ dfC7.length := by norm_num [dfC7]
  have spec := aggression_strength_spec dfC7 ofCfgC7 hlen rfl
  have hsimp : ((dfC7.map MarketRow.agressao_saldo).getLast?).getD 0 = 2 := by
    norm_num [dfC7, List.replicate]
  have hval : (analyze_order_flow dfC7 ofCfgC7).strength = 1 := by
    rw [spec.1, hsimp]
    norm_num [dfC7, qmean, lastN, List.replicate]
  exact ⟨⟨hlen, rfl⟩,
    spec.2.1 (by rw [hval]; norm_num [ofCfgC7]) (by rw [hsimp]; norm_num)⟩

/-- C9: on a frame of at least 10 rows, Phase analysis sets support to the
mean of the 3 smallest lows and resistance to the mean of the 3 largest
highs over the last 20 rows; and whenever the range width is positive, the
position in range is below 0.3 and the accumulation tell count exceeds 5,
it reports phase Accumulation with a Buy microsignal and confidence 0.7. -/
theorem wyckoff_accumulation_spec (df : Frame) (cfg : WyckoffCfg)
    (h10 : 10 ≤ df.length) (hen : cfg.enabled = true) :
    (analyze_wyckoff df cfg).support_level
        = some (qmean ((sortAsc ((lastN 20 df).map MarketRow.minimo)).take 3))
    ∧ (analyze_wyckoff df cfg).resistance_level
        = some (qmean ((sortDesc ((lastN 20 df).map MarketRow.maximo)).take 3))
    ∧ (0 < wyWidth df → wyPosition df < 0.3 → 5 < wyPdvu df →
        (analyze_wyckoff df cfg).phase = some "Acumulação"
        ∧ ⟨SigType.Compra, "Acumulação próxima ao suporte", none, none⟩
            ∈ (analyze_wyckoff df cfg).signals
        ∧ (analyze_wyckoff df cfg).confidence = 0.7) := by
  have hne : df.isEmpty = false := by
    cases df
    · simp at h10
    · rfl
  have hwy : analyze_wyckoff df cfg
      = (if 0 < wyWidth df then
          if wyPosition df < 0.3 then
            if 5 < wyPdvu df then
              ⟨true, some "Acumulação",
                [⟨SigType.Compra, "Acumulação próxima ao suporte", none, none⟩],
                0.7, some (wySupport df), some (wyResistance df),
                wyPupd df, wyPdvu df, some (wyPosition df)⟩
            else ⟨true, none, [], 0, some (wySupport df), some (wyResistance df),
              wyPupd df, wyPdvu df, some (wyPosition df)⟩
          else if 0.7 < wyPosition df then
            if 5 < wyPupd df then
              ⟨true, some "Distribuição",
                [⟨SigType.Venda, "Distribuição próxima à resistência", none, none⟩],
                0.7, some (wySupport df), some (wyResistance df),
                wyPupd df, wyPdvu df, some (wyPosition df)⟩
            else ⟨true, none, [], 0, some (wySupport df), some (wyResistance df),
              wyPupd df, wyPdvu df, some (wyPosition df)⟩
          else ⟨true, none, [], 0, some (wySupport df), some (wyResistance df),
            wyPupd df, wyPdvu df, some (wyPosition df)⟩
        else ⟨true, none, [], 0, some (wySupport df), some (wyResistance df),
          wyPupd df, wyPdvu df, none⟩) := by
    unfold analyze_wyckoff
    rw [hne, hen]
    simp [h10]
  refine ⟨?_, ?_, ?_⟩
  · rw [hwy]
    repeat' split
    all_goals rfl
  · rw [hwy]
    repeat' split
    all_goals rfl
  · intro hw hp hc
    rw [hwy, if_pos hw, if_pos hp, if_pos hc]
    exact ⟨rfl, List.mem_singleton.mpr rfl, rfl⟩

/-- A 12-row frame with falling price and rising volume on every bar
(accumulation) whose last price sits below the support mean. -/
def dfC9 : Frame :=
  [⟨120, 120, 120, 10, 0, 0, 0⟩, ⟨119, 119, 119, 11, 0, 0, 0⟩,
   ⟨118, 118, 118, 12, 0, 0, 0⟩, ⟨117, 117, 117, 13, 0, 0, 0⟩,
   ⟨116, 116, 116, 14, 0, 0, 0⟩, ⟨115, 115, 115, 15, 0, 0, 0⟩,
   ⟨114, 114, 114, 16, 0, 0, 0⟩, ⟨113, 113, 113, 17, 0, 0, 0⟩,
   ⟨112, 112, 112, 18, 0, 0, 0⟩, ⟨111, 111, 111, 19, 0, 0, 0⟩,
   ⟨110, 110, 110, 20, 0, 0, 0⟩, ⟨109, 109, 109, 21, 0, 0, 0⟩]

def wyCfgC9 : WyckoffCfg := ⟨true⟩

theorem wyckoff_accumulation_spec_witness :
    (10 ≤ dfC9.length ∧ wyCfgC9.enabled = true
      ∧ 0 < wyWidth dfC9 ∧ wyPosition dfC9 < 0.3 ∧ 5 < wyPdvu dfC9) ∧
    ((analyze_wyckoff dfC9 wyCfgC9).phase = some "Acumulação"
      ∧ ⟨SigType.Compra, "Acumulação próxima ao suporte", none, none⟩
          ∈ (analyze_wyckoff dfC9 wyCfgC9).signals
      ∧ (analyze_wyckoff dfC9 wyCfgC9).confidence = 0.7) := by
  have h10 : 10 ≤ dfC9.length := by norm_num [dfC9]
  have hsup : wySupport dfC9 = 110 := by
    norm_num [wySupport, supportOf, lastN, dfC9, sortAsc, insertAsc, qmean]
  have hres : wyResistance dfC9 = 119 := by
    norm_num [wyResistance, resistanceOf, lastN, dfC9, sortDesc, insertDesc, qmean]
  have hw : 0 < wyWidth dfC9 := by
    rw [wyWidth, hsup, hres]
    norm_num
  have hp : wyPosition dfC9 < 0.3 := by
    rw [wyPosition, wyWidth, hsup, hres]
    norm_num [wyLastPrice, dfC9]
  have hc : 5 < wyPdvu dfC9 := by
    norm_num [wyPdvu, dfC9, price_down_volume_up, consecPairs, pcPos, pcNeg]
  exact ⟨⟨h10, rfl, hw, hp, hc⟩,
    (wyckoff_accumulation_spec dfC9 wyCfgC9 h10 rfl).2.2 hw hp hc⟩

theorem rocAnalysis_reasons (xs : List ℚ) (thr : ℚ) (trend : String) (conf : ℚ) :
    ∀ s ∈ (rocAnalysis xs thr trend conf).1,
      s.reason = "Momentum positivo em tendência de alta"
      ∨ s.reason = "Momentum negativo em tendência de baixa" := by
  intro s hs
  unfold rocAnalysis at hs
  repeat' split at hs
  all_goals simp at hs
  all_goals rw [hs]
  · left; rfl
  · right; rfl

/-- C8 (amended): on an enabled momentum analysis of a frame with at least
`slow_period` and at least 3 rows, a golden-cross Buy microsignal is emitted
exactly when the fast-minus-slow moving-average difference goes from `≤ 0`
at the previous tick to `> 0` at the current tick, and a death-cross Sell
microsignal exactly when it goes from `≥ 0` to `< 0` (the claim's stated
boundary, from `> 0` to `≤ 0`, is refuted by
`momentum_death_cross_boundary_counterexample`); a firing cross block
assigns confidence `min(0.85, 0.6 + |diff_pct| * 5)`; and with fewer than
`slow_period` rows the module result is invalid. -/
theorem momentum_cross_spec (df : Frame) (cfg : MomentumCfg)
    (hen : cfg.enabled = true) (hslow : cfg.slow_period ≤ df.length)
    (h3 : 3 ≤ df.length) :
    (((analyze_momentum df cfg).signals.any fun s =>
        s.reason = "Cruzamento de médias para cima (Golden Cross)")
      = (decide (prevMaDiff (df.map MarketRow.ultimo) cfg.fast_period cfg.slow_period ≤ 0)
          && decide (0 < lastMaDiff (df.map MarketRow.ultimo) cfg.fast_period cfg.slow_period)))
    ∧ (((analyze_momentum df cfg).signals.any fun s =>
        s.reason = "Cruzamento de médias para baixo (Death Cross)")
      = (decide (0 ≤ prevMaDiff (df.map MarketRow.ultimo) cfg.fast_period cfg.slow_period)
          && decide (lastMaDiff (df.map MarketRow.ultimo) cfg.fast_period cfg.slow_period < 0)))
    ∧ ((momentumCross (df.map MarketRow.ultimo) cfg.fast_period cfg.slow_period).1 ≠ [] →
        (momentumCross (df.map MarketRow.ultimo) cfg.fast_period cfg.slow_period).2
          = min 0.85 (0.6
              + |lastMaDiffPct (df.map MarketRow.ultimo) cfg.fast_period cfg.slow_period| * 5))
    ∧ (∀ (df2 : Frame) (cfg2 : MomentumCfg), df2.length < cfg2.slow_period →
        (analyze_momentum df2 cfg2).valid = false) := by
  have hne : df.isEmpty = false := by
    cases df
    · simp at h3
    · rfl
  have hnl : ¬df.length < cfg.slow_period := not_lt.mpr hslow
  have hsig : (analyze_momentum df cfg).signals
      = (momentumCross (df.map MarketRow.ultimo) cfg.fast_period cfg.slow_period).1
        ++ (rocAnalysis (df.map MarketRow.ultimo) cfg.signal_threshold
            (momentumTrend (df.map MarketRow.ultimo) cfg.fast_period cfg.slow_period)
            (momentumCross (df.map MarketRow.ultimo) cfg.fast_period cfg.slow_period).2).1 := by
    unfold analyze_momentum
    rw [hne, hen]
    simp [hnl]
  have h3x : 3 ≤ (df.map MarketRow.ultimo).length := by simpa using h3
  have hrocg : ((rocAnalysis (df.map MarketRow.ultimo) cfg.signal_threshold
      (momentumTrend (df.map MarketRow.ultimo) cfg.fast_period cfg.slow_period)
      (momentumCross (df.map MarketRow.ultimo) cfg.fast_period cfg.slow_period).2).1.any
        fun s => s.reason = "Cruzamento de médias para cima (Golden Cross)") = false := by
    rw [List.any_eq_false]
    intro s hs
    rcases rocAnalysis_reasons _ _ _ _ s hs with h | h <;> simp [h]
  have hrocd : ((rocAnalysis (df.map MarketRow.ultimo) cfg.signal_threshold
      (momentumTrend (df.map MarketRow.ultimo) cfg.fast_period cfg.slow_period)
      (momentumCross (df.map MarketRow.ultimo) cfg.fast_period cfg.slow_period).2).1.any
        fun s => s.reason = "Cruzamento de médias para baixo (Death Cross)") = false := by
    rw [List.any_eq_false]
    intro s hs
    rcases rocAnalysis_reasons _ _ _ _ s hs with h | h <;> simp [h]
  refine ⟨?_, ?_, ?_, ?_⟩
  · rw [hsig, List.any_append, hrocg, Bool.or_false]
    unfold momentumCross
    rw [if_pos h3x]
    by_cases hg : prevMaDiff (df.map MarketRow.ultimo) cfg.fast_period cfg.slow_period ≤ 0
        ∧ 0 < lastMaDiff (df.map MarketRow.ultimo) cfg.fast_period cfg.slow_period
    · rw [if_pos hg]
      simp [hg.1, hg.2]
    · rw [if_neg hg]
      rw [Classical.not_and_iff_or_not_not] at hg
      split
      · rcases hg with h | h <;> simp [h]
      · rcases hg with h | h <;> simp [h]
  · rw [hsig, List.any_append, hrocd, Bool.or_false]
    unfold momentumCross
    rw [if_pos h3x]
    by_cases hg : prevMaDiff (df.map MarketRow.ultimo) cfg.fast_period cfg.slow_period ≤ 0
        ∧ 0 < lastMaDiff (df.map MarketRow.ultimo) cfg.fast_period cfg.slow_period
    · rw [if_pos hg]
      have : ¬lastMaDiff (df.map MarketRow.ultimo) cfg.fast_period cfg.slow_period < 0 :=
        asymm hg.2
      simp [this]
    · rw [if_neg hg]
      by_cases hd : 0 ≤ prevMaDiff (df.map MarketRow.ultimo) cfg.fast_period cfg.slow_period
          ∧ lastMaDiff (df.map MarketRow.ultimo) cfg.fast_period cfg.slow_period < 0
      · rw [if_pos hd]
        simp [hd.1, hd.2]
      · rw [if_neg hd]
        rw [Classical.not_and_iff_or_not_not] at hd
        rcases hd with h | h <;> simp [h]
  · intro hne2
    unfold momentumCross at hne2 ⊢
    rw [if_pos h3x] at hne2 ⊢
    by_cases hg : prevMaDiff (df.map MarketRow.ultimo) cfg.fast_period cfg.slow_period ≤ 0
        ∧ 0 < lastMaDiff (df.map MarketRow.ultimo) cfg.fast_period cfg.slow_period
    · rw [if_pos hg]
    · rw [if_neg hg] at hne2 ⊢
      by_cases hd : 0 ≤ prevMaDiff (df.map MarketRow.ultimo) cfg.fast_period cfg.slow_period
          ∧ lastMaDiff (df.map MarketRow.ultimo) cfg.fast_period cfg.slow_period < 0
      · rw [if_pos hd]
      · rw [if_neg hd] at hne2
        exact absurd rfl hne2
  · intro df2 cfg2 hlt
    unfold analyze_momentum
    split
    · rfl
    · split
      · rfl
      · rfl

/-- A 3-row frame whose previous-tick `ma_diff` is exactly 0 and whose
current `ma_diff` is negative (fast period 1, slow period 3). -/
def dfC8 : Frame :=
  [⟨4, 4, 4, 0, 0, 0, 0⟩, ⟨4, 4, 4, 0, 0, 0, 0⟩, ⟨1, 1, 1, 0, 0, 0, 0⟩]

def mCfgC8 : MomentumCfg := ⟨true, 1, 3, 0.5⟩

/-- C8 counterexample: on a concrete frame whose previous-tick `ma_diff` is
exactly 0 and whose current `ma_diff` is negative, the code emits a
death-cross Sell microsignal although the claimed condition "changes from
`> 0` at the previous tick" does not hold. -/
theorem momentum_death_cross_boundary_counterexample :
    ((analyze_momentum dfC8 mCfgC8).signals.any fun s =>
        s.reason = "Cruzamento de médias para baixo (Death Cross)") = true
    ∧ ¬(0 < prevMaDiff (dfC8.map MarketRow.ultimo) mCfgC8.fast_period mCfgC8.slow_period)
    ∧ mCfgC8.slow_period ≤ dfC8.length ∧ mCfgC8.enabled = true := by
  refine ⟨?_, ?_, by norm_num [dfC8, mCfgC8], rfl⟩
  · norm_num [analyze_momentum, dfC8, mCfgC8, momentumCross, momentumTrend, rocAnalysis,
      lastRoc5, lastMaDiff, prevMaDiff, lastMaDiffPct, maDiffList, maDiffPctList, maFill,
      qmean, List.range_succ]
  · norm_num [prevMaDiff, maDiffList, maFill, dfC8, mCfgC8, qmean, List.range_succ]

theorem momentum_cross_spec_witness :
    (mCfgC8.enabled = true ∧ mCfgC8.slow_period ≤ dfC8.length ∧ 3 ≤ dfC8.length) ∧
    ((analyze_momentum dfC8 mCfgC8).signals.any fun s =>
        s.reason = "Cruzamento de médias para baixo (Death Cross)")
      = (decide (0 ≤ prevMaDiff (dfC8.map MarketRow.ultimo)
            mCfgC8.fast_period mCfgC8.slow_period)
        && decide (lastMaDiff (dfC8.map MarketRow.ultimo)
            mCfgC8.fast_period mCfgC8.slow_period < 0)) :=
  ⟨⟨rfl, by norm_num [dfC8, mCfgC8], by norm_num [dfC8]⟩,
    (momentum_cross_spec dfC8 mCfgC8 rfl (by norm_num [dfC8, mCfgC8])
      (by norm_num [dfC8])).2.1⟩

theorem wyckoff_confidence_bounds (df : Frame) (cfg : WyckoffCfg) :
    0 ≤ (analyze_wyckoff df cfg).confidence ∧ (analyze_wyckoff df cfg).confidence ≤ 1 := by
  unfold analyze_wyckoff
  repeat' split
  all_goals norm_num [WyckoffResult.invalid]

theorem wyckoff_signals_conf_none (df : Frame) (cfg : WyckoffCfg) :
    ∀ s ∈ (analyze_wyckoff df cfg).signals, s.confidence = none := by
  intro s hs
  unfold analyze_wyckoff at hs
  repeat' split at hs
  all_goals simp [WyckoffResult.invalid] at hs
  all_goals rw [hs]

theorem aggression_conf_bounds (saldos : List ℚ) (thr : ℚ) :
    0 ≤ (aggressionAnalysis saldos thr).2.1 ∧ (aggressionAnalysis saldos thr).2.1 ≤ 0.9 := by
  unfold aggressionAnalysis
  repeat' split
  · rename_i hthr hpos
    have hs : 0 < aggStrength saldos :=
      div_pos hpos (lt_of_lt_of_le one_pos (le_max_left _ _))
    constructor
    · exact le_min (by norm_num) (by linarith)
    · exact min_le_left _ _
  · rename_i hthr hnp hneg
    constructor
    · exact le_min (by norm_num) (by have := abs_nonneg (aggStrength saldos); linarith)
    · exact min_le_left _ _
  all_goals norm_num

theorem absorption_conf_bounds (df : Frame) (thr c : ℚ) (h0 : 0 ≤ c) (h1 : c ≤ 0.9) :
    0 ≤ (absorptionAnalysis df thr c).2 ∧ (absorptionAnalysis df thr c).2 ≤ 0.9 := by
  have hup : max c (min 0.8 (0.4 + absorbQ df / 20)) ≤ 0.9 :=
    max_le h1 (le_trans (min_le_left _ _) (by norm_num))
  have hlo : 0 ≤ max c (min 0.8 (0.4 + absorbQ df / 20)) :=
    le_trans h0 (le_max_left _ _)
  unfold absorptionAnalysis
  split
  · split
    · split
      · exact ⟨hlo, hup⟩
      · split
        · exact ⟨hlo, hup⟩
        · exact ⟨h0, h1⟩
    · exact ⟨h0, h1⟩
  · exact ⟨h0, h1⟩

theorem exhaustion_conf_bounds (df : Frame) (c : ℚ) (h0 : 0 ≤ c) (h1 : c ≤ 0.9) :
    0 ≤ (exhaustionAnalysis df c).2 ∧ (exhaustionAnalysis df c).2 ≤ 0.9 := by
  have hup : max c 0.75 ≤ (0.9 : ℚ) := max_le h1 (by norm_num)
  have hlo : (0 : ℚ) ≤ max c 0.75 := le_trans h0 (le_max_left _ _)
  unfold exhaustionAnalysis
  split
  · split
    · split
      · exact ⟨hlo, hup⟩
      · split
        · exact ⟨hlo, hup⟩
        · exact ⟨h0, h1⟩
    · exact ⟨h0, h1⟩
  · exact ⟨h0, h1⟩

theorem order_flow_confidence_bounds (df : Frame) (cfg : OrderFlowCfg) :
    0 ≤ (analyze_order_flow df cfg).confidence
      ∧ (analyze_order_flow df cfg).confidence ≤ 1 := by
  unfold analyze_order_flow
  split
  · norm_num [OrderFlowResult.invalid]
  · split
    · norm_num [OrderFlowResult.invalid]
    · have h1 := aggression_conf_bounds (df.map MarketRow.agressao_saldo)
        cfg.aggression_threshold
      have h2 := absorption_conf_bounds df cfg.absorption_threshold _
        h1.1 (le_trans h1.2 (by norm_num))
      have h3 := exhaustion_conf_bounds df _ h2.1 h2.2
      exact ⟨h3.1, le_trans h3.2 (by norm_num)⟩

theorem cross_conf_bounds (xs : List ℚ) (fast slow : ℕ) :
    0 ≤ (momentumCross xs fast slow).2 ∧ (momentumCross xs fast slow).2 ≤ 0.85 := by
  have hlo : (0 : ℚ) ≤ min 0.85 (0.6 + |lastMaDiffPct xs fast slow| * 5) :=
    le_min (by norm_num) (by have := abs_nonneg (lastMaDiffPct xs fast slow); linarith)
  have hup : min 0.85 (0.6 + |lastMaDiffPct xs fast slow| * 5) ≤ (0.85 : ℚ) :=
    min_le_left _ _
  unfold momentumCross
  split
  · split
    · exact ⟨hlo, hup⟩
    · split
      · exact ⟨hlo, hup⟩
      · norm_num
  · norm_num

theorem roc_conf_bounds (xs : List ℚ) (thr : ℚ) (trend : String) (c : ℚ)
    (h0 : 0 ≤ c) (h1 : c ≤ 0.85) :
    0 ≤ (rocAnalysis xs thr trend c).2 ∧ (rocAnalysis xs thr trend c).2 ≤ 0.85 := by
  have hupp : max c (min 0.8 (0.5 + lastRoc5 xs / 10)) ≤ (0.85 : ℚ) :=
    max_le h1 (le_trans (min_le_left _ _) (by norm_num))
  have hlop : (0 : ℚ) ≤ max c (min 0.8 (0.5 + lastRoc5 xs / 10)) :=
    le_trans h0 (le_max_left _ _)
  have hupn : max c (min 0.8 (0.5 + |lastRoc5 xs| / 10)) ≤ (0.85 : ℚ) :=
    max_le h1 (le_trans (min_le_left _ _) (by norm_num))
  have hlon : (0 : ℚ) ≤ max c (min 0.8 (0.5 + |lastRoc5 xs| / 10)) :=
    le_trans h0 (le_max_left _ _)
  unfold rocAnalysis
  split
  · split
    · split
      · exact ⟨hlop, hupp⟩
      · exact ⟨h0, h1⟩
    · split
      · exact ⟨hlon, hupn⟩
      · exact ⟨h0, h1⟩
  · exact ⟨h0, h1⟩

theorem momentum_confidence_bounds (df : Frame) (cfg : MomentumCfg) :
    0 ≤ (analyze_momentum df cfg).confidence
      ∧ (analyze_momentum df cfg).confidence ≤ 1 := by
  unfold analyze_momentum
  split
  · norm_num [MomentumResult.invalid]
  · split
    · norm_num [MomentumResult.invalid]
    · split
      · norm_num [MomentumResult.invalid]
      · have h1 := cross_conf_bounds (df.map MarketRow.ultimo) cfg.fast_period cfg.slow_period
        have h2 := roc_conf_bounds (df.map MarketRow.ultimo) cfg.signal_threshold
          (momentumTrend (df.map MarketRow.ultimo) cfg.fast_period cfg.slow_period)
          _ h1.1 h1.2
        exact ⟨h2.1, le_trans h2.2 (by norm_num)⟩

theorem aggression_signals_conf_none (saldos : List ℚ) (thr : ℚ) :
    ∀ s ∈ (aggressionAnalysis saldos thr).1, s.confidence = none := by
  intro s hs
  unfold aggressionAnalysis at hs
  repeat' split at hs
  all_goals simp at hs
  all_goals rw [hs]

theorem absorption_signals_conf_none (df : Frame) (thr c : ℚ) :
    ∀ s ∈ (absorptionAnalysis df thr c).1, s.confidence = none := by
  intro s hs
  unfold absorptionAnalysis at hs
  repeat' split at hs
  all_goals simp at hs
  all_goals rw [hs]

theorem exhaustion_signals_conf_none (df : Frame) (c : ℚ) :
    ∀ s ∈ (exhaustionAnalysis df c).1, s.confidence = none := by
  intro s hs
  unfold exhaustionAnalysis at hs
  repeat' split at hs
  all_goals simp at hs
  all_goals rw [hs]

theorem order_flow_signals_conf_none (df : Frame) (cfg : OrderFlowCfg) :
    ∀ s ∈ (analyze_order_flow df cfg).signals, s.confidence = none := by
  intro s hs
  unfold analyze_order_flow at hs
  split at hs
  · simp [OrderFlowResult.invalid] at hs
  · split at hs
    · simp [OrderFlowResult.invalid] at hs
    · rcases List.mem_append.mp hs with h1 | h2
      · rcases List.mem_append.mp h1 with ha | hb
        · exact aggression_signals_conf_none _ _ s ha
        · exact absorption_signals_conf_none _ _ _ s hb
      · exact exhaustion_signals_conf_none _ _ s h2

theorem cross_signals_conf_none (xs : List ℚ) (fast slow : ℕ) :
    ∀ s ∈ (momentumCross xs fast slow).1, s.confidence = none := by
  intro s hs
  unfold momentumCross at hs
  repeat' split at hs
  all_goals simp at hs
  all_goals rw [hs]

theorem roc_signals_conf_none (xs : List ℚ) (thr : ℚ) (trend : String) (c : ℚ) :
    ∀ s ∈ (rocAnalysis xs thr trend c).1, s.confidence = none := by
  intro s hs
  unfold rocAnalysis at hs
  repeat' split at hs
  all_goals simp at hs
  all_goals rw [hs]

theorem momentum_signals_conf_none (df : Frame) (cfg : MomentumCfg) :
    ∀ s ∈ (analyze_momentum df cfg).signals, s.confidence = none := by
  intro s hs
  unfold analyze_momentum at hs
  split at hs
  · simp [MomentumResult.invalid] at hs
  · split at hs
    · simp [MomentumResult.invalid] at hs
    · split at hs
      · simp [MomentumResult.invalid] at hs
      · rcases List.mem_append.mp hs with h1 | h2
        · exact cross_signals_conf_none _ _ _ s h1
        · exact roc_signals_conf_none _ _ _ _ s h2

theorem meanMsConfidence_zero (l : List MS) (h : ∀ s ∈ l, s.confidence = none) :
    meanMsConfidence l = 0 := by
  unfold meanMsConfidence
  have hsum : (l.map fun s => s.confidence.getD 0).sum = 0 := by
    induction l with
    | nil => simp
    | cons a t ih =>
      simp only [List.map_cons, List.sum_cons,
        ih (fun x hx => h x (List.mem_cons_of_mem _ hx))]
      rw [h a (List.mem_cons_self _ _)]
      simp
  rw [hsum]
  simp

theorem aggregated_conf_bounds (rw : WyckoffResult) (ro : OrderFlowResult)
    (rm : MomentumResult)
    (h0 : aggConf0 rw ro rm = 0)
    (hw : 0 ≤ rw.confidence ∧ rw.confidence ≤ 1)
    (ho : 0 ≤ ro.confidence ∧ ro.confidence ≤ 1)
    (hm : 0 ≤ rm.confidence ∧ rm.confidence ≤ 1) :
    0 ≤ aggregatedConfidence rw ro rm ∧ aggregatedConfidence rw ro rm ≤ 1 := by
  have h1 : 0 ≤ aggConf1 rw ro rm ∧ aggConf1 rw ro rm ≤ 1 := by
    unfold aggConf1
    rw [h0]
    split
    · exact ⟨le_max_of_le_left le_rfl, max_le (by norm_num) hw.2⟩
    · norm_num
  have h2 : 0 ≤ aggConf2 rw ro rm ∧ aggConf2 rw ro rm ≤ 1 := by
    unfold aggConf2
    split
    · exact ⟨le_trans h1.1 (le_max_left _ _), max_le h1.2 ho.2⟩
    · exact h1
  unfold aggregatedConfidence
  split
  · exact ⟨le_trans h2.1 (le_max_left _ _), max_le h2.2 hm.2⟩
  · exact h2

/-- C4: every TradingDecision emitted by the pipeline (the Decision Engine
run on the three analysis-module results for a frame) has
`risk_reward_ratio = |target - entry| / |entry - stop|`, at least the
profile's configured minimum risk/reward, and confidence in `[0, 1]`. -/
theorem emitted_decision_invariants (asset profile : String) (cfg : SignalCfg)
    (lastSignalTime : Option ℚ) (now : ℚ) (df : Frame)
    (wcfg : WyckoffCfg) (ocfg : OrderFlowCfg) (mcfg : MomentumCfg)
    (marketPrice dbPrice : Option ℚ) (sig : TradingSignal) (st2 : Option ℚ)
    (h : generate_trading_signal asset profile cfg lastSignalTime now
      (analyze_wyckoff df wcfg) (analyze_order_flow df ocfg) (analyze_momentum df mcfg)
      marketPrice dbPrice = (some sig, st2)) :
    sig.risk_reward_ratio
      = |sig.take_profit - sig.entry_price| / |sig.entry_price - sig.stop_loss|
    ∧ cfg.risk_reward_min ≤ sig.risk_reward_ratio
    ∧ 0 ≤ sig.confidence ∧ sig.confidence ≤ 1 := by
  have spec := gts_emit_spec _ _ _ _ _ _ _ _ _ _ _ _ h
  have hnone : ∀ s ∈ filteredSignals (allSignals (analyze_wyckoff df wcfg)
      (analyze_order_flow df ocfg) (analyze_momentum df mcfg)), s.confidence = none := by
    intro s hs
    have hs' := List.mem_of_mem_filter hs
    unfold allSignals at hs'
    rcases List.mem_append.mp hs' with h1 | h2
    · rcases List.mem_append.mp h1 with ha | hb
      · exact wyckoff_signals_conf_none df wcfg s ha
      · exact order_flow_signals_conf_none df ocfg s hb
    · exact momentum_signals_conf_none df mcfg s h2
  have h0 : aggConf0 (analyze_wyckoff df wcfg) (analyze_order_flow df ocfg)
      (analyze_momentum df mcfg) = 0 := by
    unfold aggConf0
    exact meanMsConfidence_zero _ hnone
  have hb := aggregated_conf_bounds _ _ _ h0 (wyckoff_confidence_bounds df wcfg)
    (order_flow_confidence_bounds df ocfg) (momentum_confidence_bounds df mcfg)
  refine ⟨spec.2.1, spec.2.2.1, ?_, ?_⟩
  · rw [spec.1]
    exact hb.1
  · rw [spec.1]
    exact hb.2

/-- A 3-row frame producing a golden-cross Buy microsignal with fast period
1 and slow period 3. -/
def dfC4 : Frame :=
  [⟨2, 2, 2, 0, 0, 0, 0⟩, ⟨1, 1, 1, 0, 0, 0, 0⟩, ⟨3, 3, 3, 0, 0, 0, 0⟩]

def wCfgC4 : WyckoffCfg := ⟨false⟩

def oCfgC4 : OrderFlowCfg := ⟨false, 1.5, 2, 3⟩

def mCfgC4 : MomentumCfg := ⟨true, 1, 3, 0.5⟩

def sCfgC4 : SignalCfg := ⟨true, 0.5, false, 1, 300⟩

/-- The decision the pipeline emits on `dfC4`. -/
def sigC4 : TradingSignal :=
  ⟨"winfut", SigType.Compra, 100, 99, 102, 0.85, 2, 0,
    ["Cruzamento de médias para cima (Golden Cross)"], false, false, true, "agressivo"⟩

/-- Witness for C4: a concrete full-pipeline emission whose decision
satisfies both invariants. -/
theorem emitted_decision_invariants_witness :
    generate_trading_signal "winfut" "agressivo" sCfgC4 none 0
        (analyze_wyckoff dfC4 wCfgC4) (analyze_order_flow dfC4 oCfgC4)
        (analyze_momentum dfC4 mCfgC4) (some 100) none = (some sigC4, some 0)
    ∧ (sigC4.risk_reward_ratio
        = |sigC4.take_profit - sigC4.entry_price| / |sigC4.entry_price - sigC4.stop_loss|
      ∧ sCfgC4.risk_reward_min ≤ sigC4.risk_reward_ratio
      ∧ 0 ≤ sigC4.confidence ∧ sigC4.confidence ≤ 1) := by
  have hw : analyze_wyckoff dfC4 wCfgC4 = WyckoffResult.invalid := by
    norm_num [analyze_wyckoff, wCfgC4, dfC4]
  have ho : analyze_order_flow dfC4 oCfgC4 = OrderFlowResult.invalid := by
    norm_num [analyze_order_flow, oCfgC4, dfC4]
  have hm : analyze_momentum dfC4 mCfgC4 =
      ⟨true, [⟨SigType.Compra, "Cruzamento de médias para cima (Golden Cross)", some 5, none⟩],
        0.85, some "Alta", 1/2⟩ := by
    norm_num [analyze_momentum, dfC4, mCfgC4, momentumCross, momentumTrend, rocAnalysis,
      lastRoc5, lastMaDiff, prevMaDiff, lastMaDiffPct, maDiffList, maDiffPctList, maFill,
      qmean, List.range_succ, abs_of_pos, abs_of_nonneg]
  have hg : generate_trading_signal "winfut" "agressivo" sCfgC4 none 0
      (analyze_wyckoff dfC4 wCfgC4) (analyze_order_flow dfC4 oCfgC4)
      (analyze_momentum dfC4 mCfgC4) (some 100) none = (some sigC4, some 0) := by
    rw [hw, ho, hm]
    norm_num [generate_trading_signal, rateLimited, allSignals, majorityType,
      filteredSignals, aggConf0, aggConf1, aggConf2, aggregatedConfidence,
      meanMsConfidence, strategiesWithSignals, priceAndLevelsOf, optTruthy,
      stopPriceOf, targetPriceOf, rrrOf, sCfgC4, sigC4, reduceCtorEq,
      WyckoffResult.invalid, OrderFlowResult.invalid,
      show (SigType.Compra = SigType.Venda) = False from by simp,
      show (SigType.Venda = SigType.Compra) = False from by simp,
      sup_eq_max, max_def, min_def, List.filterMap]
  exact ⟨hg, emitted_decision_invariants "winfut" "agressivo" sCfgC4 none 0 dfC4
    wCfgC4 oCfgC4 mCfgC4 (some 100) none sigC4 (some 0) hg⟩

/-- C5: for every non-empty microsignal multiset with a strict majority
direction and three valid module-level results, the emitted decision's
aggregated confidence equals the maximum of (a) the mean confidence of the
majority-direction microsignals (reading an absent confidence key as 0, as
the source does) and (b) the maximum confidence across the three
module-level results. -/
theorem aggregated_confidence_formula (asset profile : String) (cfg : SignalCfg)
    (lastSignalTime : Option ℚ) (now : ℚ)
    (rw : WyckoffResult) (ro : OrderFlowResult) (rm : MomentumResult)
    (marketPrice dbPrice : Option ℚ) (sig : TradingSignal) (st2 : Option ℚ)
    (hvw : rw.valid = true) (hvo : ro.valid = true) (hvm : rm.valid = true)
    (hne : allSignals rw ro rm ≠ [])
    (hmaj : ((allSignals rw ro rm).filter fun s => s.type = SigType.Compra).length
        ≠ ((allSignals rw ro rm).filter fun s => s.type = SigType.Venda).length)
    (h : generate_trading_signal asset profile cfg lastSignalTime now rw ro rm
      marketPrice dbPrice = (some sig, st2)) :
    sig.confidence
      = max (meanMsConfidence (filteredSignals (allSignals rw ro rm)))
          (max rw.confidence (max ro.confidence rm.confidence)) := by
  have spec := gts_emit_spec _ _ _ _ _ _ _ _ _ _ _ _ h
  rw [spec.1]
  unfold aggregatedConfidence aggConf2 aggConf1 aggConf0
  simp only [hvw, hvo, hvm, if_true]
  rw [max_assoc, max_assoc]

/-- A valid Wyckoff result with one Buy microsignal, confidence 0.3,
support 99, resistance 103. -/
def rwC5 : WyckoffResult :=
  ⟨true, none, [⟨SigType.Compra, "Acumulação próxima ao suporte", none, none⟩],
    0.3, some 99, some 103, 0, 7, none⟩

/-- A valid order-flow result with one Buy microsignal and confidence 0.8. -/
def roC5 : OrderFlowResult :=
  ⟨true, [⟨SigType.Compra, "Forte agressão compradora", some 1, none⟩], 0.8, 2, 2, 1⟩

/-- A valid momentum result with no microsignals and confidence 0.2. -/
def rmC5 : MomentumResult := ⟨true, [], 0.2, some "Alta", 0⟩

def sCfgC5 : SignalCfg := ⟨true, 0.5, true, 1.5, 300⟩

/-- The decision emitted for the C5 witness inputs. -/
def sigC5 : TradingSignal :=
  ⟨"winfut", SigType.Compra, 100, 99, 103, 0.8, 3, 0,
    ["Acumulação próxima ao suporte", "Forte agressão compradora"],
    true, true, true, "moderado"⟩

/-- Witness for C5: a concrete emission whose confidence equals the claimed
maximum formula. -/
theorem aggregated_confidence_formula_witness :
    (rwC5.valid = true ∧ roC5.valid = true ∧ rmC5.valid = true
      ∧ allSignals rwC5 roC5 rmC5 ≠ []
      ∧ ((allSignals rwC5 roC5 rmC5).filter fun s => s.type = SigType.Compra).length
          ≠ ((allSignals rwC5 roC5 rmC5).filter fun s => s.type = SigType.Venda).length
      ∧ generate_trading_signal "winfut" "moderado" sCfgC5 none 0 rwC5 roC5 rmC5
          (some 100) none = (some sigC5, some 0))
    ∧ sigC5.confidence
        = max (meanMsConfidence (filteredSignals (allSignals rwC5 roC5 rmC5)))
            (max rwC5.confidence (max roC5.confidence rmC5.confidence)) := by
  have hne : allSignals rwC5 roC5 rmC5 ≠ [] := by
    simp [allSignals, rwC5, roC5, rmC5]
  have hmaj : ((allSignals rwC5 roC5 rmC5).filter fun s => s.type = SigType.Compra).length
      ≠ ((allSignals rwC5 roC5 rmC5).filter fun s => s.type = SigType.Venda).length := by
    norm_num [allSignals, rwC5, roC5, rmC5, List.filter,
      show (decide (SigType.Compra = SigType.Venda)) = false from rfl,
      show (decide (SigType.Compra = SigType.Compra)) = true from rfl]
  have hg : generate_trading_signal "winfut" "moderado" sCfgC5 none 0 rwC5 roC5 rmC5
      (some 100) none = (some sigC5, some 0) := by
    norm_num [generate_trading_signal, rateLimited, allSignals, majorityType,
      filteredSignals, aggConf0, aggConf1, aggConf2, aggregatedConfidence,
      meanMsConfidence, strategiesWithSignals, priceAndLevelsOf, optTruthy,
      stopPriceOf, targetPriceOf, rrrOf, sCfgC5, sigC5, rwC5, roC5, rmC5, reduceCtorEq,
      show (SigType.Compra = SigType.Venda) = False from by simp,
      show (SigType.Venda = SigType.Compra) = False from by simp,
      sup_eq_max, max_def, min_def, List.filterMap]
  exact ⟨⟨rfl, rfl, rfl, hne, hmaj, hg⟩,
    aggregated_confidence_formula "winfut" "moderado" sCfgC5 none 0 rwC5 roC5 rmC5
      (some 100) none sigC5 (some 0) rfl rfl rfl hne hmaj hg⟩
